import Mathlib

/-!
Shallow embedding of the template engine and template store of
src/Main.py (class GuestEmailGenerator).

Strings are modelled as Lean String (a structure over List Char of Unicode
scalar values, matching Python str for all code points this program can
store).  The in-memory template dictionary is an insertion-ordered
association list, matching Python dict semantics (assignment to an existing
key keeps its position, a new key is appended, deletion removes the entry).
The file system is modelled as an association list from file name to file
content; a durable write that can fail (open/json.dump raising OSError) is
modelled by an explicit writeOk flag on each mutating operation, and a
failed write leaves the modelled disk unchanged while the raised error
propagates, exactly as an exception from the with-open block would.
-/

/-- Brace characters, defined by code point so that no literal brace
appears in the file. -/
def lbrace : Char := Char.ofNat 123

/-- Closing brace character. -/
def rbrace : Char := Char.ofNat 125

/-- First character of an identifier, per the regex classes
[a-zA-Z_] used in get_required_fields (line 139) and per
string.Template's idpattern (?a:[_a-z][_a-z0-9]*) under re.IGNORECASE. -/
def isIdentStart (c : Char) : Bool := c.isAlpha || c = '_'

/-- Subsequent character of an identifier: [a-zA-Z0-9_]. -/
def isIdentChar (c : Char) : Bool := c.isAlphanum || c = '_'

/-- Length bound used by the termination measures of the scanners below. -/
def dropLt (p : Char → Bool) (l : List Char) (n : Nat) (h : l.length < n) :
    (l.dropWhile p).length < n :=
  Nat.lt_of_le_of_lt (List.dropWhile_sublist (l := l) (p := p)).length_le h

/-- Length bound for recursion after the closing brace of a braced
placeholder. -/
def tailDropLt (p : Char → Bool) (l : List Char) (n : Nat) (h : l.length < n) :
    ((l.dropWhile p).tail).length < n :=
  Nat.lt_of_le_of_lt
    (Nat.le_trans ((List.tail_sublist (l.dropWhile p)).length_le)
      (List.dropWhile_sublist (l := l) (p := p)).length_le) h

/-- A template record: the two text fields stored per template
(subject and body), as created at Main.py lines 182-185. -/
structure Template where
  subject : String
  body : String
  deriving DecidableEq, Repr

/-- The typed errors the core can raise.  In Python all of these are
ValueError / KeyError / OSError; the spec names them NotFoundError,
DuplicateError, MissingFieldError, StorageError, and string.Template
raises ValueError for an invalid placeholder and KeyError for a braced
placeholder whose key is absent. -/
inductive CoreError where
  | notFound (name : String)
  | duplicate (name : String)
  | missingFields (fields : List String)
  | invalidPlaceholder
  | keyError (name : String)
  | storage
  deriving DecidableEq, Repr

instance {ε α : Type} [DecidableEq ε] [DecidableEq α] : DecidableEq (Except ε α) := fun a b =>
  match a, b with
  | .ok x, .ok y =>
    match decEq x y with
    | isTrue h => isTrue (h ▸ rfl)
    | isFalse h => isFalse (fun hh => h (Except.ok.inj hh))
  | .error x, .error y =>
    match decEq x y with
    | isTrue h => isTrue (h ▸ rfl)
    | isFalse h => isFalse (fun hh => h (Except.error.inj hh))
  | .ok _, .error _ => isFalse (fun hh => Except.noConfusion hh)
  | .error _, .ok _ => isFalse (fun hh => Except.noConfusion hh)

/-- A rendered email, the dict returned by generate_email (lines 170-174). -/
structure Email where
  toAddr : String
  subject : String
  body : String
  deriving DecidableEq, Repr

/-- Association-list lookup, modelling Python dict lookup d[k] / k in d. -/
def alookup {β : Type} (k : String) : List (String × β) → Option β
  | [] => none
  | (a, v) :: rest => if a = k then some v else alookup k rest

/-- Python dict assignment d[k] = v: an existing key keeps its position and
gets the new value; a new key is appended at the end. -/
def dictInsert {β : Type} (k : String) (v : β) : List (String × β) → List (String × β)
  | [] => [(k, v)]
  | (a, w) :: rest => if a = k then (a, v) :: rest else (a, w) :: dictInsert k v rest

/-- Python dict deletion del d[k]: removes the entry for k. -/
def dictRemove {β : Type} (k : String) : List (String × β) → List (String × β)
  | [] => []
  | (a, w) :: rest => if a = k then rest else (a, w) :: dictRemove k rest

/-- re.findall applied with pattern r'\$([a-zA-Z_][a-zA-Z0-9_]*)'
(Main.py line 139): scan left to right; at a sentinel followed by an
identifier start, capture the maximal identifier and resume after it;
at a sentinel not followed by an identifier start, resume at the very
next character (so the second sentinel of a doubled sentinel is itself
a new scan position). -/
def findall : List Char → List String
  | [] => []
  | c :: rest =>
    if c = '$' then
      match rest with
      | [] => []
      | d :: rest2 =>
        if isIdentStart d then
          String.mk (d :: rest2.takeWhile isIdentChar) :: findall (rest2.dropWhile isIdentChar)
        else findall (d :: rest2)
    else findall rest
termination_by l => l.length
decreasing_by
  · simp only [List.length_cons]
    have := (List.dropWhile_sublist (l := rest2) (p := isIdentChar)).length_le
    omega
  · simp only [List.length_cons]
    omega
  · simp only [List.length_cons]
    omega

/-- Code-point comparison of characters, then lexicographic on the lists:
the order Python's sorted() uses on str. -/
def charsLe : List Char → List Char → Bool
  | [], _ => true
  | _ :: _, [] => false
  | a :: as, b :: bs =>
    if a.toNat < b.toNat then true
    else if a.toNat = b.toNat then charsLe as bs
    else false

/-- The string order used by Python's sorted(), as a proposition. -/
def pyLe (a b : String) : Prop := charsLe a.data b.data = true

instance : DecidableRel pyLe := fun a b => by unfold pyLe; infer_instance

/-- Totality of the code-point lexicographic comparison. -/
def charsLe_total : ∀ x y : List Char, charsLe x y = true ∨ charsLe y x = true := by
  intro x
  induction x with
  | nil => intro y; left; simp [charsLe]
  | cons a as ih =>
    intro y
    cases y with
    | nil => right; simp [charsLe]
    | cons b bs =>
      rcases Nat.lt_trichotomy a.toNat b.toNat with h | h | h
      · left; simp [charsLe, h]
      · rcases ih bs with h2 | h2
        · left; simp [charsLe, h, h2]
        · right; simp [charsLe, h.symm, h2]
      · right; simp [charsLe, h]

/-- Transitivity of the code-point lexicographic comparison. -/
def charsLe_trans : ∀ x y z : List Char, charsLe x y = true → charsLe y z = true →
    charsLe x z = true := by
  intro x
  induction x with
  | nil => intro y z _ _; simp [charsLe]
  | cons a as ih =>
    intro y z hxy hyz
    cases y with
    | nil => simp [charsLe] at hxy
    | cons b bs =>
      cases z with
      | nil => simp [charsLe] at hyz
      | cons c cs =>
        rcases Nat.lt_trichotomy a.toNat b.toNat with h1 | h1 | h1
        · rcases Nat.lt_trichotomy b.toNat c.toNat with h2 | h2 | h2
          · simp [charsLe, Nat.lt_trans h1 h2]
          · simp [charsLe, h2 ▸ h1]
          · simp [charsLe, h2, Nat.lt_asymm h2, Nat.ne_of_gt h2] at hyz
        · rcases Nat.lt_trichotomy b.toNat c.toNat with h2 | h2 | h2
          · simp [charsLe, h1 ▸ h2]
          · have hac : a.toNat = c.toNat := h1.trans h2
            simp [charsLe, h1, Nat.lt_irrefl, h2, hac] at hxy hyz ⊢
            exact ih bs cs hxy hyz
          · simp [charsLe, h2, Nat.lt_asymm h2, Nat.ne_of_gt h2] at hyz
        · simp [charsLe, h1, Nat.lt_asymm h1, Nat.ne_of_gt h1] at hxy

instance : IsTotal String pyLe := ⟨fun a b => charsLe_total a.data b.data⟩

instance : IsTrans String pyLe := ⟨fun a b c h1 h2 => charsLe_trans a.data b.data c.data h1 h2⟩

/-- sorted(set(xs)) from Main.py line 146: drop duplicates, then sort
lexicographically by code point. -/
def pySortedSet (l : List String) : List String := List.insertionSort pyLe l.dedup

/-- get_required_fields (Main.py lines 132-146) restricted to the pure part
operating on one template record: scan subject and body with findall,
combine, drop duplicates and sort. -/
def required_fields_of (t : Template) : List String :=
  pySortedSet (findall t.subject.data ++ findall t.body.data)

/-- Prepend a literal character to the rest of a substitution result. -/
def consOk (c : Char) : Except CoreError (List Char) → Except CoreError (List Char)
  | .ok out => .ok (c :: out)
  | .error e => .error e

/-- Prepend a substituted value to the rest of a substitution result. -/
def appendOk (v : List Char) : Except CoreError (List Char) → Except CoreError (List Char)
  | .ok out => .ok (v ++ out)
  | .error e => .error e

/-- Substitute a looked-up placeholder value, or raise KeyError when the
mapping lacks the identifier. -/
def keyedAppend (ident : String) (o : Option String) (res : Except CoreError (List Char)) :
    Except CoreError (List Char) :=
  match o with
  | some v => appendOk v.data res
  | none => .error (.keyError ident)

/-- string.Template(...).substitute(m) (Python 3 string.Template with the
default delimiter and idpattern): at a sentinel, a second sentinel is an
escape producing one literal sentinel; an open brace must be followed by a
full identifier and a closing brace, whose value is substituted (KeyError
when absent); a bare identifier start begins a maximal identifier, whose
value is substituted (KeyError when absent); anything else after the
sentinel, including end of text, raises ValueError (invalid placeholder).
Ordinary characters pass through. -/
def subst (m : List (String × String)) : List Char → Except CoreError (List Char)
  | [] => .ok []
  | c :: rest =>
    if c = '$' then
      match rest with
      | [] => .error .invalidPlaceholder
      | d :: rest2 =>
        if d = '$' then consOk '$' (subst m rest2)
        else if d = lbrace then
          match rest2 with
          | [] => .error .invalidPlaceholder
          | i :: cs =>
            if isIdentStart i then
              if (cs.dropWhile isIdentChar).head? = some rbrace then
                keyedAppend (String.mk (i :: cs.takeWhile isIdentChar))
                  (alookup (String.mk (i :: cs.takeWhile isIdentChar)) m)
                  (subst m (cs.dropWhile isIdentChar).tail)
              else .error .invalidPlaceholder
            else .error .invalidPlaceholder
        else if isIdentStart d then
          keyedAppend (String.mk (d :: rest2.takeWhile isIdentChar))
            (alookup (String.mk (d :: rest2.takeWhile isIdentChar)) m)
            (subst m (rest2.dropWhile isIdentChar))
        else .error .invalidPlaceholder
    else consOk c (subst m rest)
termination_by l => l.length
decreasing_by
  all_goals first
    | (exact tailDropLt _ _ _ (by simp only [List.length_cons]; omega))
    | (exact dropLt _ _ _ (by simp only [List.length_cons]; omega))
    | (simp only [List.length_cons]; omega)

/-- True when the text contains a sentinel immediately followed by an
identifier start, i.e. a token the findall scan would report. -/
def hasPlaceholderToken : List Char → Bool
  | [] => false
  | c :: rest =>
    if c = '$' then
      match rest with
      | [] => false
      | d :: _ => isIdentStart d || hasPlaceholderToken rest
    else hasPlaceholderToken rest

/-- Every sentinel in the text is immediately followed by an identifier
start: only bare-form placeholders occur (no doubled sentinel, no brace
form, no trailing or invalid sentinel). -/
def cleanPattern : List Char → Bool
  | [] => true
  | c :: rest =>
    if c = '$' then
      match rest with
      | [] => false
      | d :: _ => isIdentStart d && cleanPattern rest
    else cleanPattern rest

/-- The process state of GuestEmailGenerator: the in-memory template dict
and the modelled templates directory. -/
structure Generator where
  templates : List (String × Template)
  disk : List (String × String)
  deriving DecidableEq, Repr

/-- list_available_templates (Main.py lines 128-130): the dict keys in
insertion order. -/
def list_available_templates (g : Generator) : List String := g.templates.map Prod.fst

/-- Template access self.templates[name] guarded by a membership check, as
every core operation performs it; KeyError/ValueError on an absent name is
the spec's NotFoundError. -/
def get_template (g : Generator) (name : String) : Except CoreError Template :=
  match alookup name g.templates with
  | some t => .ok t
  | none => .error (.notFound name)

/-- get_required_fields (Main.py lines 132-146) including the existence
check on the template type. -/
def get_required_fields (g : Generator) (ttype : String) : Except CoreError (List String) :=
  match alookup ttype g.templates with
  | some t => .ok (required_fields_of t)
  | none => .error (.notFound ttype)

/-- generate_email (Main.py lines 148-174): existence check, missing-field
check against the sorted duplicate-free required list, then
Template.substitute on subject and body (subject first), and the result
triple with recipient guest_details.get("guest_email", ""). -/
def generate_email (g : Generator) (ttype : String) (guest : List (String × String)) :
    Except CoreError Email :=
  match alookup ttype g.templates with
  | none => .error (.notFound ttype)
  | some t =>
    let missing := (required_fields_of t).filter (fun f => (alookup f guest).isNone)
    if missing.isEmpty then
      match subst guest t.subject.data with
      | .error e => .error e
      | .ok subjChars =>
        match subst guest t.body.data with
        | .error e => .error e
        | .ok bodyChars =>
          .ok ⟨(alookup "guest_email" guest).getD "", String.mk subjChars, String.mk bodyChars⟩
    else .error (.missingFields missing)

/-- Hex digit character, lowercase, as printf %04x produces. -/
def hexDigitChar (n : Nat) : Char := if n < 10 then Char.ofNat (48 + n) else Char.ofNat (87 + n)

/-- Four hex digits of a number below 0x10000. -/
def hex4 (n : Nat) : List Char :=
  [hexDigitChar (n / 4096 % 16), hexDigitChar (n / 256 % 16),
   hexDigitChar (n / 16 % 16), hexDigitChar (n % 16)]

/-- A backslash-u escape. -/
def uEscape (n : Nat) : List Char := '\\' :: 'u' :: hex4 n

/-- json.dump's escaping of one character with the default
ensure_ascii=True (CPython py_encode_basestring_ascii): backslash and
quote get two-character escapes, the named control escapes are used for
backspace, form feed, newline, carriage return and tab, every other
printable ASCII character passes through, and everything else becomes
backslash-u escapes, a surrogate pair for code points above 0xFFFF. -/
def escChar (c : Char) : List Char :=
  if c = '\\' then ['\\', '\\']
  else if c = '"' then ['\\', '"']
  else if c = '\n' then ['\\', 'n']
  else if c = '\r' then ['\\', 'r']
  else if c = '\t' then ['\\', 't']
  else if c.toNat = 8 then ['\\', 'b']
  else if c.toNat = 12 then ['\\', 'f']
  else if 32 ≤ c.toNat ∧ c.toNat ≤ 126 then [c]
  else if c.toNat < 65536 then uEscape c.toNat
  else uEscape (55296 + (c.toNat - 65536) / 1024) ++ uEscape (56320 + (c.toNat - 65536) % 1024)

/-- The JSON text of one string value, quotes included. -/
def py_encode_string (s : String) : String :=
  String.mk ('"' :: (s.data.map escChar).flatten ++ ['"'])

/-- Numeric value of one hex digit as json.load accepts it. -/
def hexVal (c : Char) : Option Nat :=
  if 48 ≤ c.toNat ∧ c.toNat ≤ 57 then some (c.toNat - 48)
  else if 97 ≤ c.toNat ∧ c.toNat ≤ 102 then some (c.toNat - 87)
  else if 65 ≤ c.toNat ∧ c.toNat ≤ 70 then some (c.toNat - 55)
  else none

/-- Value of four hex digits. -/
def hexVal4 (a b c d : Char) : Option Nat :=
  match hexVal a, hexVal b, hexVal c, hexVal d with
  | some x, some y, some z, some w => some (((x * 16 + y) * 16 + z) * 16 + w)
  | _, _, _, _ => none

/-- Prepend a decoded character to a string-decoding result. -/
def mapCons (x : Char) (o : Option (List Char × List Char)) : Option (List Char × List Char) :=
  o.map fun p => (x :: p.1, p.2)

/-- json.load's decoding of one backslash escape (CPython py_scanstring):
the named escapes, and backslash-u escapes parsed as four hex digits with
a high surrogate recombined with the following low surrogate escape.
Returns the decoded character and the input after the escape.  (A lone
surrogate escape, which Python would keep as an unpaired surrogate code
unit, has no Lean Char counterpart and is rejected; the writer in this
program never produces one.) -/
def decodeEscape : List Char → Option (Char × List Char)
  | [] => none
  | e :: rest =>
    if e = '"' then some ('"', rest)
    else if e = '\\' then some ('\\', rest)
    else if e = '/' then some ('/', rest)
    else if e = 'b' then some (Char.ofNat 8, rest)
    else if e = 'f' then some (Char.ofNat 12, rest)
    else if e = 'n' then some ('\n', rest)
    else if e = 'r' then some ('\r', rest)
    else if e = 't' then some ('\t', rest)
    else if e = 'u' then
      match rest with
      | a1 :: a2 :: a3 :: a4 :: rest3 =>
        match hexVal4 a1 a2 a3 a4 with
        | none => none
        | some n =>
          if n < 55296 ∨ 57344 ≤ n then some (Char.ofNat n, rest3)
          else if n ≤ 56319 then
            match rest3 with
            | e1 :: e2 :: b1 :: b2 :: b3 :: b4 :: rest4 =>
              if e1 = '\\' then
                if e2 = 'u' then
                  match hexVal4 b1 b2 b3 b4 with
                  | some n2 =>
                    if 56320 ≤ n2 ∧ n2 ≤ 57343 then
                      some (Char.ofNat (65536 + (n - 55296) * 1024 + (n2 - 56320)), rest4)
                    else none
                  | none => none
                else none
              else none
            | _ => none
          else none
      | _ => none
    else none

/-- Decode one logical character at the head of a string body: a plain
character stands for itself, a backslash starts an escape, and a quote is
not a character (the caller ends the string there). -/
def decodeOne : List Char → Option (Char × List Char)
  | [] => none
  | c :: rest =>
    if c = '"' then none
    else if c = '\\' then decodeEscape rest
    else some (c, rest)

/-- json.load's scanner for the inside of a string literal, from just
after the opening quote, counting decoded characters with fuel (one unit
per logical character, so the input length bounds it): returns the decoded
text and the input after the closing quote. -/
def decodeBodyF : Nat → List Char → Option (List Char × List Char)
  | _, [] => none
  | 0, _ :: _ => none
  | fuel + 1, c :: rest =>
    if c = '"' then some ([], rest)
    else
      match decodeOne (c :: rest) with
      | none => none
      | some (ch, rest2) => mapCons ch (decodeBodyF fuel rest2)

/-- The scanner with enough fuel for its own input. -/
def decodeBody (l : List Char) : Option (List Char × List Char) :=
  decodeBodyF (l.length + 1) l

/-- A whole JSON string literal starting at the opening quote. -/
def decodeStringTok : List Char → Option (String × List Char)
  | [] => none
  | c :: rest =>
    if c = '"' then (decodeBody rest).map (fun p => (String.mk p.1, p.2)) else none

/-- The exact file text json.dump(template, file, indent=4) writes for the
two-field record built at Main.py lines 182-185: subject first, then body,
each on its own four-space-indented line. -/
def encodeTemplate (t : Template) : String :=
  "\x7b\n    \"subject\": " ++ py_encode_string t.subject ++
    ",\n    \"body\": " ++ py_encode_string t.body ++ "\n\x7d"

/-- Consume an expected literal prefix. -/
def expectChars : List Char → List Char → Option (List Char)
  | [], l => some l
  | _ :: _, [] => none
  | p :: ps, c :: cs => if c = p then expectChars ps cs else none

/-- json.load of one template file, restricted to the record format the
writer above produces (the only format this program ever stores); any
other content is malformed and load raises. -/
def decodeTemplate (content : String) : Option Template :=
  match expectChars "\x7b\n    \"subject\": ".data content.data with
  | none => none
  | some l1 =>
    match decodeStringTok l1 with
    | none => none
    | some (s, l2) =>
      match expectChars ",\n    \"body\": ".data l2 with
      | none => none
      | some l3 =>
        match decodeStringTok l3 with
        | none => none
        | some (b, l4) =>
          match expectChars "\n\x7d".data l4 with
          | some [] => some ⟨s, b⟩
          | _ => none

/-- filename.endswith('.json'). -/
def strEndsWith (s suffix : String) : Bool := suffix.data.isSuffixOf s.data

/-- filename.split('.')[0]. -/
def splitHead (s : String) : String := String.mk (s.data.takeWhile (fun c => !(c = '.')))

/-- The loop body of load_templates (Main.py lines 23-28): for each
directory entry ending in .json, parse it and assign it into the dict
under the name before the first dot; a malformed record raises. -/
def loadGo : List (String × Template) → List (String × String) →
    Except CoreError (List (String × Template))
  | acc, [] => .ok acc
  | acc, (fname, content) :: rest =>
    if strEndsWith fname ".json" then
      match decodeTemplate content with
      | some t => loadGo (dictInsert (splitHead fname) t acc) rest
      | none => .error .storage
    else loadGo acc rest

/-- load_templates (Main.py lines 15-28) on an already-seeded directory:
read every .json file into a fresh dict. -/
def load_templates (disk : List (String × String)) :
    Except CoreError (List (String × Template)) := loadGo [] disk

/-- add_template (Main.py lines 176-193): duplicate check, then the
in-memory dict gains the record, then the durable write; a failing write
raises after the memory mutation has happened. -/
def add_template (g : Generator) (name subject body : String) (writeOk : Bool) :
    Generator × Except CoreError String :=
  if (alookup name g.templates).isSome then
    (g, .error (.duplicate name))
  else
    let t : Template := ⟨subject, body⟩
    let g1 : Generator := { g with templates := dictInsert name t g.templates }
    if writeOk then
      ({ g1 with disk := dictInsert (name ++ ".json") (encodeTemplate t) g1.disk }, .ok name)
    else (g1, .error .storage)

/-- update_template (Main.py lines 195-212): existence check, in-place
replacement of whichever fields are given, then the durable write; a
failing write raises after the in-memory record already holds the new
fields. -/
def update_template (g : Generator) (name : String) (subject2 body2 : Option String)
    (writeOk : Bool) : Generator × Except CoreError String :=
  match alookup name g.templates with
  | none => (g, .error (.notFound name))
  | some t =>
    let t2 : Template := ⟨subject2.getD t.subject, body2.getD t.body⟩
    let g1 : Generator := { g with templates := dictInsert name t2 g.templates }
    if writeOk then
      ({ g1 with disk := dictInsert (name ++ ".json") (encodeTemplate t2) g1.disk }, .ok name)
    else (g1, .error .storage)

/-- delete_template (Main.py lines 214-227): existence check, removal from
the dict, then removal of the file guarded by an existence test; a failing
file removal raises after the memory entry is already gone. -/
def delete_template (g : Generator) (name : String) (removeOk : Bool) :
    Generator × Except CoreError String :=
  if (alookup name g.templates).isNone then (g, .error (.notFound name))
  else
    let g1 : Generator := { g with templates := dictRemove name g.templates }
    if (alookup (name ++ ".json") g1.disk).isSome then
      if removeOk then ({ g1 with disk := dictRemove (name ++ ".json") g1.disk }, .ok name)
      else (g1, .error .storage)
    else (g1, .ok name)

/-- The template-name pattern the CLI checks before calling add_template:
re.match(r'^[a-z_][a-z0-9_]*$', name) at Main.py line 354.  (Python's
dollar anchor also matches just before one trailing newline.) -/
def isLowerIdentStart (c : Char) : Bool := c.isLower || c = '_'

/-- Subsequent character of the CLI name pattern: [a-z0-9_]. -/
def isLowerIdentChar (c : Char) : Bool := c.isLower || c.isDigit || c = '_'

/-- Tail of the CLI name pattern: [a-z0-9_] characters, with one optional
final newline, which the dollar anchor of re.match tolerates. -/
def validTail : List Char → Bool
  | [] => true
  | [c] => isLowerIdentChar c || c = '\n'
  | c :: rest => isLowerIdentChar c && validTail rest

/-- Whether a proposed template name matches the CLI naming pattern. -/
def validTemplateName (s : String) : Bool :=
  match s.data with
  | [] => false
  | c :: cs => isLowerIdentStart c && validTail cs

/-- A name containing no dot survives the split('.')[0] of load unchanged. -/
def goodName (s : String) : Bool := s.data.all (fun c => !(c = '.'))

/-- Text containing no sentinel character at all. -/
def noDollar (l : List Char) : Bool := l.all (fun c => !(c = '$'))

/-- The directory record of one named template: name.json holding the
json.dump text. -/
def encRecord (p : String × Template) : String × String :=
  (p.1 ++ ".json", encodeTemplate p.2)

/-- Consistency of a generator state with its modelled directory: the
directory holds exactly one record per in-memory template, under the
name.json file name with the json.dump text, names are dot-free and the
dict keys are distinct (as Python dict keys always are). -/
def StoreInv (g : Generator) : Prop :=
  g.disk = g.templates.map encRecord ∧
  (∀ p ∈ g.templates, goodName p.1 = true) ∧
  (g.templates.map Prod.fst).Nodup

/-- One mutating call on the store, with the success of its durable write
made explicit. -/
inductive Op where
  | addT (name subject body : String) (writeOk : Bool)
  | updateT (name : String) (subject2 body2 : Option String) (writeOk : Bool)
  | deleteT (name : String) (removeOk : Bool)
  deriving DecidableEq, Repr

/-- The state after one mutating call (the returned value is dropped). -/
def applyOp (g : Generator) : Op → Generator
  | .addT n s b w => (add_template g n s b w).1
  | .updateT n s b w => (update_template g n s b w).1
  | .deleteT n w => (delete_template g n w).1

/-- The state after a sequence of mutating calls. -/
def runOps : Generator → List Op → Generator
  | g, [] => g
  | g, op :: ops => runOps (applyOp g op) ops

/-- Whether an operation is an add of the given name. -/
def isAddOfB (name : String) : Op → Bool
  | .addT n _ _ _ => n == name
  | _ => false

/-- Fuel-indexed evaluator for findall, structurally recursive on the fuel
so that the kernel can evaluate it on concrete inputs; it agrees with
findall whenever the fuel covers the input length (findallF_agree). -/
def findallF : Nat → List Char → List String
  | _, [] => []
  | 0, _ :: _ => []
  | fuel + 1, c :: rest =>
    if c = '$' then
      match rest with
      | [] => []
      | d :: rest2 =>
        if isIdentStart d then
          String.mk (d :: rest2.takeWhile isIdentChar) ::
            findallF fuel (rest2.dropWhile isIdentChar)
        else findallF fuel (d :: rest2)
    else findallF fuel rest

/-- Fuel-indexed evaluator for subst, structurally recursive on the fuel;
it agrees with subst whenever the fuel covers the input length
(substF_agree). -/
def substF (m : List (String × String)) : Nat → List Char → Except CoreError (List Char)
  | _, [] => .ok []
  | 0, _ :: _ => .error .invalidPlaceholder
  | fuel + 1, c :: rest =>
    if c = '$' then
      match rest with
      | [] => .error .invalidPlaceholder
      | d :: rest2 =>
        if d = '$' then consOk '$' (substF m fuel rest2)
        else if d = lbrace then
          match rest2 with
          | [] => .error .invalidPlaceholder
          | i :: cs =>
            if isIdentStart i then
              if (cs.dropWhile isIdentChar).head? = some rbrace then
                keyedAppend (String.mk (i :: cs.takeWhile isIdentChar))
                  (alookup (String.mk (i :: cs.takeWhile isIdentChar)) m)
                  (substF m fuel (cs.dropWhile isIdentChar).tail)
              else .error .invalidPlaceholder
            else .error .invalidPlaceholder
        else if isIdentStart d then
          keyedAppend (String.mk (d :: rest2.takeWhile isIdentChar))
            (alookup (String.mk (d :: rest2.takeWhile isIdentChar)) m)
            (substF m fuel (rest2.dropWhile isIdentChar))
        else .error .invalidPlaceholder
    else consOk c (substF m fuel rest)

/-- generate_email written with the fuel-indexed evaluators, so concrete
runs reduce in the kernel; agrees with generate_email
(generate_email_eval). -/
def generate_emailF (g : Generator) (ttype : String) (guest : List (String × String)) :
    Except CoreError Email :=
  match alookup ttype g.templates with
  | none => .error (.notFound ttype)
  | some t =>
    let req := pySortedSet (findallF (t.subject.data.length + 1) t.subject.data ++
      findallF (t.body.data.length + 1) t.body.data)
    let missing := req.filter (fun f => (alookup f guest).isNone)
    if missing.isEmpty then
      match substF guest (t.subject.data.length + 1) t.subject.data with
      | .error e => .error e
      | .ok sj =>
        match substF guest (t.body.data.length + 1) t.body.data with
        | .error e => .error e
        | .ok bd => .ok ⟨(alookup "guest_email" guest).getD "", String.mk sj, String.mk bd⟩
    else .error (.missingFields missing)

/-! Helper lemmas about the dict model. -/

theorem alookup_eq_none {β : Type} (k : String) (l : List (String × β)) :
    alookup k l = none ↔ k ∉ l.map Prod.fst := by
  induction l with
  | nil => simp [alookup]
  | cons p rest ih =>
    obtain ⟨a, v⟩ := p
    by_cases h : a = k
    · subst h
      simp [alookup]
    · simp [alookup, h, ih, Ne.symm h]

theorem alookup_some_mem {β : Type} {k : String} {l : List (String × β)} {v : β}
    (h : alookup k l = some v) : (k, v) ∈ l := by
  induction l with
  | nil => simp [alookup] at h
  | cons p rest ih =>
    obtain ⟨a, w⟩ := p
    by_cases ha : a = k
    · subst ha
      simp [alookup] at h
      simp [h]
    · simp [alookup, ha] at h
      simp [ih h]

theorem alookup_dictInsert_self {β : Type} (k : String) (v : β) (l : List (String × β)) :
    alookup k (dictInsert k v l) = some v := by
  induction l with
  | nil => simp [dictInsert, alookup]
  | cons p rest ih =>
    obtain ⟨a, w⟩ := p
    by_cases h : a = k
    · subst h
      simp [dictInsert, alookup]
    · simp [dictInsert, alookup, h, ih]

theorem alookup_dictInsert_ne {β : Type} {a k : String} (v : β) (l : List (String × β))
    (h : a ≠ k) : alookup a (dictInsert k v l) = alookup a l := by
  have h2 : ¬(k = a) := fun hh => h hh.symm
  induction l with
  | nil => simp [dictInsert, alookup, h2]
  | cons p rest ih =>
    obtain ⟨b, w⟩ := p
    by_cases hb : b = k
    · subst hb
      simp [dictInsert, alookup, h2]
    · simp only [dictInsert, if_neg hb, alookup, ih]

theorem dictInsert_fresh {β : Type} {k : String} (v : β) {l : List (String × β)}
    (h : k ∉ l.map Prod.fst) : dictInsert k v l = l ++ [(k, v)] := by
  induction l with
  | nil => simp [dictInsert]
  | cons p rest ih =>
    obtain ⟨a, w⟩ := p
    simp only [List.map_cons, List.mem_cons] at h
    push_neg at h
    have ha : ¬(a = k) := fun hh => h.1 (Eq.symm hh)
    simp [dictInsert, ha, ih h.2]

theorem dictRemove_sublist {β : Type} (k : String) (l : List (String × β)) :
    (dictRemove k l).Sublist l := by
  induction l with
  | nil => simp [dictRemove]
  | cons p rest ih =>
    obtain ⟨a, w⟩ := p
    by_cases h : a = k
    · simp only [dictRemove, if_pos h]
      exact List.sublist_cons_self _ _
    · simp only [dictRemove, if_neg h]
      exact List.Sublist.cons₂ _ ih

theorem alookup_dictRemove_self {β : Type} {k : String} {l : List (String × β)}
    (hnd : (l.map Prod.fst).Nodup) : alookup k (dictRemove k l) = none := by
  induction l with
  | nil => simp [dictRemove, alookup]
  | cons p rest ih =>
    obtain ⟨a, w⟩ := p
    simp only [List.map_cons, List.nodup_cons] at hnd
    by_cases h : a = k
    · subst h
      simp only [dictRemove, if_pos rfl]
      rw [alookup_eq_none]
      exact hnd.1
    · simp [dictRemove, alookup, h, ih hnd.2]

theorem alookup_none_dictRemove {β : Type} {a k : String} {l : List (String × β)}
    (h : alookup a l = none) : alookup a (dictRemove k l) = none := by
  rw [alookup_eq_none] at h ⊢
  intro hmem
  exact h (((dictRemove_sublist k l).map Prod.fst).subset hmem)

/-! Character-class facts and one-step equations for the scanners. -/

theorem identStart_not_dollar {d : Char} (h : isIdentStart d = true) : ¬(d = '$') := by
  intro hd
  subst hd
  revert h
  decide

theorem identStart_not_lbrace {d : Char} (h : isIdentStart d = true) : ¬(d = lbrace) := by
  intro hd
  subst hd
  revert h
  decide

theorem identChar_not_dollar {d : Char} (h : isIdentChar d = true) : ¬(d = '$') := by
  intro hd
  subst hd
  revert h
  decide

theorem identChar_rbrace_false : isIdentChar rbrace = false := by decide

theorem lbrace_not_dollar : ¬(lbrace = '$') := by decide

theorem rbrace_not_dollar : ¬(rbrace = '$') := by decide

theorem findall_nil : findall [] = [] := by simp [findall]

theorem findall_cons_not_dollar {c : Char} (h : ¬(c = '$')) (l : List Char) :
    findall (c :: l) = findall l := by
  rw [findall.eq_def]
  simp [h]

theorem findall_dollar_end : findall ['$'] = [] := by
  rw [findall.eq_def]
  simp

theorem findall_dollar_ident {d : Char} (h : isIdentStart d = true) (l : List Char) :
    findall ('$' :: d :: l) =
      String.mk (d :: l.takeWhile isIdentChar) :: findall (l.dropWhile isIdentChar) := by
  rw [findall.eq_def]
  simp [h]

theorem findall_dollar_not_ident {d : Char} (h : isIdentStart d = false) (l : List Char) :
    findall ('$' :: d :: l) = findall (d :: l) := by
  rw [findall.eq_def]
  simp [h]

theorem consOk_eq_map (c : Char) (e : Except CoreError (List Char)) :
    consOk c e = e.map (fun out => c :: out) := by
  cases e <;> rfl

theorem appendOk_eq_map (v : List Char) (e : Except CoreError (List Char)) :
    appendOk v e = e.map (fun out => v ++ out) := by
  cases e <;> rfl

theorem subst_nil (m : List (String × String)) : subst m [] = .ok [] := by simp [subst]

theorem subst_cons_not_dollar (m : List (String × String)) {c : Char} (h : ¬(c = '$'))
    (l : List Char) : subst m (c :: l) = (subst m l).map (fun out => c :: out) := by
  rw [subst.eq_def]
  simp only [if_neg h]
  exact consOk_eq_map c (subst m l)

theorem subst_escaped (m : List (String × String)) (l : List Char) :
    subst m ('$' :: '$' :: l) = (subst m l).map (fun out => '$' :: out) := by
  rw [subst.eq_def]
  simp only [if_pos rfl]
  exact consOk_eq_map '$' (subst m l)

theorem subst_dollar_end (m : List (String × String)) :
    subst m ['$'] = .error .invalidPlaceholder := by
  rw [subst.eq_def]
  simp

theorem subst_named_found (m : List (String × String)) {d : Char}
    (hd : isIdentStart d = true) (l : List Char) {v : String}
    (hv : alookup (String.mk (d :: l.takeWhile isIdentChar)) m = some v) :
    subst m ('$' :: d :: l) =
      (subst m (l.dropWhile isIdentChar)).map (fun out => v.data ++ out) := by
  rw [subst.eq_def]
  simp only [if_pos rfl, if_neg (identStart_not_dollar hd),
    if_neg (identStart_not_lbrace hd), hd, if_pos rfl, hv, keyedAppend]
  exact appendOk_eq_map v.data (subst m (l.dropWhile isIdentChar))

theorem subst_named_missing (m : List (String × String)) {d : Char}
    (hd : isIdentStart d = true) (l : List Char)
    (hv : alookup (String.mk (d :: l.takeWhile isIdentChar)) m = none) :
    subst m ('$' :: d :: l) =
      .error (.keyError (String.mk (d :: l.takeWhile isIdentChar))) := by
  rw [subst.eq_def]
  simp only [if_pos rfl, if_neg (identStart_not_dollar hd),
    if_neg (identStart_not_lbrace hd), hd, if_pos rfl, hv, keyedAppend]
  simp

theorem subst_invalid (m : List (String × String)) {d : Char} (h1 : ¬(d = '$'))
    (h2 : ¬(d = lbrace)) (h3 : isIdentStart d = false) (l : List Char) :
    subst m ('$' :: d :: l) = .error .invalidPlaceholder := by
  rw [subst.eq_def]
  simp [h1, h2, h3]

/-! Splitting an identifier run followed by a non-identifier character. -/

theorem takeWhile_dropWhile_append {q : Char → Bool} {p : List Char}
    (hp : ∀ c ∈ p, q c = true) {r : List Char}
    (hr : ∀ d, r.head? = some d → q d = false) :
    (p ++ r).takeWhile q = p ∧ (p ++ r).dropWhile q = r := by
  induction p with
  | nil =>
    simp only [List.nil_append]
    cases r with
    | nil => simp
    | cons d r2 =>
      have hd := hr d (by simp)
      simp [List.takeWhile_cons, List.dropWhile_cons, hd]
  | cons c p2 ih =>
    have hc : q c = true := hp c (by simp)
    have ih2 := ih (fun x hx => hp x (by simp [hx]))
    simp [List.takeWhile_cons, List.dropWhile_cons, hc, ih2.1, ih2.2]

theorem subst_braced (m : List (String × String)) {i : Char}
    (hi : isIdentStart i = true) {cs : List Char} (hcs : ∀ c ∈ cs, isIdentChar c = true)
    (rest : List Char) :
    subst m ('$' :: lbrace :: i :: (cs ++ rbrace :: rest)) =
      keyedAppend (String.mk (i :: cs)) (alookup (String.mk (i :: cs)) m) (subst m rest) := by
  have hsplit := takeWhile_dropWhile_append (q := isIdentChar) hcs (r := rbrace :: rest)
    (fun d hd => by
      simp only [List.head?_cons, Option.some.injEq] at hd
      rw [← hd]
      exact identChar_rbrace_false)
  rw [subst.eq_def]
  simp only [if_pos rfl, if_neg lbrace_not_dollar, if_pos rfl, hi, if_pos rfl,
    hsplit.1, hsplit.2, List.head?_cons, List.tail_cons, if_pos rfl]
  simp

/-! One-step equations for cleanPattern and hasPlaceholderToken. -/

theorem clean_nil : cleanPattern [] = true := by simp [cleanPattern]

theorem clean_cons_not_dollar {c : Char} (h : ¬(c = '$')) (l : List Char) :
    cleanPattern (c :: l) = cleanPattern l := by
  rw [cleanPattern.eq_def]
  simp [h]

theorem clean_dollar_end : cleanPattern ['$'] = false := by
  rw [cleanPattern.eq_def]
  simp

theorem clean_dollar_cons (d : Char) (l : List Char) :
    cleanPattern ('$' :: d :: l) = (isIdentStart d && cleanPattern (d :: l)) := by
  rw [cleanPattern.eq_def]
  simp

theorem hpt_nil : hasPlaceholderToken [] = false := by simp [hasPlaceholderToken]

theorem hpt_cons_not_dollar {c : Char} (h : ¬(c = '$')) (l : List Char) :
    hasPlaceholderToken (c :: l) = hasPlaceholderToken l := by
  rw [hasPlaceholderToken.eq_def]
  simp [h]

theorem hpt_dollar_cons (d : Char) (l : List Char) :
    hasPlaceholderToken ('$' :: d :: l) = (isIdentStart d || hasPlaceholderToken (d :: l)) := by
  rw [hasPlaceholderToken.eq_def]
  simp

/-! Behaviour of the scanners on sentinel-free text. -/

theorem noDollar_nil : noDollar [] = true := by simp [noDollar]

theorem noDollar_cons {c : Char} {l : List Char} :
    noDollar (c :: l) = true ↔ ¬(c = '$') ∧ noDollar l = true := by
  simp [noDollar]

theorem noDollar_append {p r : List Char} :
    noDollar (p ++ r) = true ↔ noDollar p = true ∧ noDollar r = true := by
  simp [noDollar]

theorem findall_append_noDollar {p : List Char} (hp : noDollar p = true) (r : List Char) :
    findall (p ++ r) = findall r := by
  induction p with
  | nil => simp
  | cons c p2 ih =>
    rw [noDollar_cons] at hp
    simp only [List.cons_append]
    rw [findall_cons_not_dollar hp.1]
    exact ih hp.2

theorem findall_noDollar {l : List Char} (h : noDollar l = true) : findall l = [] := by
  have h2 := findall_append_noDollar h []
  simpa [findall_nil] using h2

theorem subst_append_noDollar (m : List (String × String)) {p : List Char}
    (hp : noDollar p = true) (r : List Char) :
    subst m (p ++ r) = (subst m r).map (fun out => p ++ out) := by
  induction p with
  | nil =>
    simp only [List.nil_append]
    cases subst m r <;> simp [Except.map]
  | cons c p2 ih =>
    rw [noDollar_cons] at hp
    simp only [List.cons_append]
    rw [subst_cons_not_dollar m hp.1, ih hp.2]
    cases subst m r <;> simp [Except.map]

theorem subst_noDollar (m : List (String × String)) {l : List Char} (h : noDollar l = true) :
    subst m l = .ok l := by
  have h2 := subst_append_noDollar m h []
  simpa [subst_nil, Except.map] using h2

theorem hpt_append_noDollar {p : List Char} (hp : noDollar p = true) (r : List Char) :
    hasPlaceholderToken (p ++ r) = hasPlaceholderToken r := by
  induction p with
  | nil => simp
  | cons c p2 ih =>
    rw [noDollar_cons] at hp
    simp only [List.cons_append]
    rw [hpt_cons_not_dollar hp.1]
    exact ih hp.2

/-! cleanPattern is closed under suffix operations used by the scanner. -/

theorem clean_tail {c : Char} {l : List Char} (h : cleanPattern (c :: l) = true) :
    cleanPattern l = true := by
  by_cases hc : c = '$'
  · subst hc
    cases l with
    | nil => rw [clean_dollar_end] at h; exact absurd h (by simp)
    | cons d l2 =>
      rw [clean_dollar_cons] at h
      exact (Bool.and_eq_true_iff.mp h).2
  · rw [clean_cons_not_dollar hc] at h
    exact h

theorem clean_dropWhile (q : Char → Bool) {l : List Char} (h : cleanPattern l = true) :
    cleanPattern (l.dropWhile q) = true := by
  induction l with
  | nil => simpa
  | cons c l2 ih =>
    rw [List.dropWhile_cons]
    split
    · exact ih (clean_tail h)
    · exact h

/-! The sorted duplicate-free field list. -/

theorem pySortedSet_sorted (l : List String) : (pySortedSet l).Sorted pyLe :=
  List.sorted_insertionSort pyLe l.dedup

theorem pySortedSet_nodup (l : List String) : (pySortedSet l).Nodup :=
  ((List.perm_insertionSort pyLe l.dedup).symm).nodup (List.nodup_dedup l)

theorem mem_pySortedSet {f : String} {l : List String} : f ∈ pySortedSet l ↔ f ∈ l :=
  (List.perm_insertionSort pyLe l.dedup).mem_iff.trans List.mem_dedup

theorem required_fields_sorted (t : Template) : (required_fields_of t).Sorted pyLe :=
  pySortedSet_sorted _

theorem required_fields_nodup (t : Template) : (required_fields_of t).Nodup :=
  pySortedSet_nodup _

theorem mem_required_fields {f : String} {t : Template} :
    f ∈ required_fields_of t ↔ f ∈ findall t.subject.data ∨ f ∈ findall t.body.data := by
  unfold required_fields_of
  rw [mem_pySortedSet]
  simp

/-! Substitution succeeds on patterns whose sentinels all begin bare
placeholders, when the mapping covers every scanned identifier. -/

theorem subst_clean_ok (m : List (String × String)) :
    ∀ n (l : List Char), l.length ≤ n → cleanPattern l = true →
    (∀ f ∈ findall l, (alookup f m).isSome = true) →
    ∃ out, subst m l = .ok out ∧
      ((∀ p ∈ m, noDollar p.2.data = true) → hasPlaceholderToken out = false) := by
  intro n
  induction n with
  | zero =>
    intro l hlen hcl hf
    have hnil : l = [] := List.length_eq_zero.mp (Nat.le_zero.mp hlen)
    subst hnil
    exact ⟨[], subst_nil m, fun _ => hpt_nil⟩
  | succ n ih =>
    intro l hlen hcl hf
    cases l with
    | nil => exact ⟨[], subst_nil m, fun _ => hpt_nil⟩
    | cons c rest =>
      by_cases hc : c = '$'
      · subst hc
        cases rest with
        | nil =>
          rw [clean_dollar_end] at hcl
          exact absurd hcl (by simp)
        | cons d rest2 =>
          rw [clean_dollar_cons] at hcl
          obtain ⟨hd, hcl2⟩ := Bool.and_eq_true_iff.mp hcl
          have hfa := findall_dollar_ident hd rest2
          have hmem : String.mk (d :: rest2.takeWhile isIdentChar) ∈ findall ('$' :: d :: rest2) := by
            rw [hfa]
            simp
          obtain ⟨v, hv⟩ := Option.isSome_iff_exists.mp (hf _ hmem)
          have hclrest : cleanPattern (rest2.dropWhile isIdentChar) = true :=
            clean_dropWhile isIdentChar (clean_tail hcl2)
          have hfrest : ∀ f ∈ findall (rest2.dropWhile isIdentChar),
              (alookup f m).isSome = true := by
            intro f hf2
            apply hf
            rw [hfa]
            simp [hf2]
          have hlen2 : (rest2.dropWhile isIdentChar).length ≤ n := by
            have := (List.dropWhile_sublist (l := rest2) (p := isIdentChar)).length_le
            simp only [List.length_cons] at hlen
            omega
          obtain ⟨out, hout, hplh⟩ := ih _ hlen2 hclrest hfrest
          refine ⟨v.data ++ out, ?_, ?_⟩
          · rw [subst_named_found m hd rest2 hv, hout]
            rfl
          · intro hm
            have hvnd : noDollar v.data = true := hm _ (alookup_some_mem hv)
            rw [hpt_append_noDollar hvnd]
            exact hplh hm
      · have hcl2 : cleanPattern rest = true := by rwa [clean_cons_not_dollar hc] at hcl
        have hfrest : ∀ f ∈ findall rest, (alookup f m).isSome = true := by
          intro f hf2
          apply hf
          rwa [findall_cons_not_dollar hc]
        have hlen2 : rest.length ≤ n := by
          simp only [List.length_cons] at hlen
          omega
        obtain ⟨out, hout, hplh⟩ := ih rest hlen2 hcl2 hfrest
        refine ⟨c :: out, ?_, ?_⟩
        · rw [subst_cons_not_dollar m hc, hout]
          rfl
        · intro hm
          rw [hpt_cons_not_dollar hc]
          exact hplh hm

theorem subst_clean (m : List (String × String)) {l : List Char}
    (hcl : cleanPattern l = true)
    (hf : ∀ f ∈ findall l, (alookup f m).isSome = true) :
    ∃ out, subst m l = .ok out ∧
      ((∀ p ∈ m, noDollar p.2.data = true) → hasPlaceholderToken out = false) :=
  subst_clean_ok m l.length l le_rfl hcl hf

/-- Unfolding of generate_email once the template has been found. -/
theorem generate_email_unfold {g : Generator} {ttype : String} {t : Template}
    {guest : List (String × String)} (hT : alookup ttype g.templates = some t) :
    generate_email g ttype guest =
      (if ((required_fields_of t).filter (fun f => (alookup f guest).isNone)).isEmpty then
        match subst guest t.subject.data with
        | .error e => .error e
        | .ok sj =>
          match subst guest t.body.data with
          | .error e => .error e
          | .ok bd => .ok ⟨(alookup "guest_email" guest).getD "", String.mk sj, String.mk bd⟩
      else
        .error (.missingFields
          ((required_fields_of t).filter (fun f => (alookup f guest).isNone)))) := by
  unfold generate_email
  rw [hT]

/-! Raw one-step equations used to relate subst to its fuel evaluator. -/

theorem subst_named (m : List (String × String)) {d : Char} (hd : isIdentStart d = true)
    (l : List Char) :
    subst m ('$' :: d :: l) =
      keyedAppend (String.mk (d :: l.takeWhile isIdentChar))
        (alookup (String.mk (d :: l.takeWhile isIdentChar)) m)
        (subst m (l.dropWhile isIdentChar)) := by
  rw [subst.eq_def]
  simp only [if_pos rfl, if_neg (identStart_not_dollar hd),
    if_neg (identStart_not_lbrace hd), hd, if_pos rfl]
  simp

theorem subst_braced_raw (m : List (String × String)) {i : Char} (hi : isIdentStart i = true)
    (cs : List Char) (hw : (cs.dropWhile isIdentChar).head? = some rbrace) :
    subst m ('$' :: lbrace :: i :: cs) =
      keyedAppend (String.mk (i :: cs.takeWhile isIdentChar))
        (alookup (String.mk (i :: cs.takeWhile isIdentChar)) m)
        (subst m (cs.dropWhile isIdentChar).tail) := by
  rw [subst.eq_def]
  simp only [if_pos rfl, if_neg lbrace_not_dollar, if_pos rfl, hi, if_pos rfl, hw]
  simp

theorem subst_lbrace_nil (m : List (String × String)) :
    subst m ['$', lbrace] = .error .invalidPlaceholder := by
  rw [subst.eq_def]
  simp [lbrace_not_dollar]

theorem subst_braced_not_ident (m : List (String × String)) {i : Char}
    (hi : isIdentStart i = false) (cs : List Char) :
    subst m ('$' :: lbrace :: i :: cs) = .error .invalidPlaceholder := by
  rw [subst.eq_def]
  simp [lbrace_not_dollar, hi]

theorem subst_braced_no_close (m : List (String × String)) {i : Char}
    (hi : isIdentStart i = true) {cs : List Char}
    (hw : ¬((cs.dropWhile isIdentChar).head? = some rbrace)) :
    subst m ('$' :: lbrace :: i :: cs) = .error .invalidPlaceholder := by
  rw [subst.eq_def]
  simp [lbrace_not_dollar, hi, hw]

/-! The fuel evaluators agree with the scanners when the fuel suffices. -/

theorem findallF_agree : ∀ fuel (l : List Char), l.length ≤ fuel →
    findallF fuel l = findall l := by
  intro fuel
  induction fuel with
  | zero =>
    intro l h
    have hnil : l = [] := List.length_eq_zero.mp (Nat.le_zero.mp h)
    subst hnil
    simp [findallF, findall_nil]
  | succ fuel ih =>
    intro l h
    cases l with
    | nil => simp [findallF, findall_nil]
    | cons c rest =>
      by_cases hc : c = '$'
      · subst hc
        cases rest with
        | nil => simp [findallF, findall_dollar_end]
        | cons d rest2 =>
          simp only [List.length_cons] at h
          by_cases hd : isIdentStart d = true
          · rw [findall_dollar_ident hd]
            have hlen : (rest2.dropWhile isIdentChar).length ≤ fuel := by
              have := (List.dropWhile_sublist (l := rest2) (p := isIdentChar)).length_le
              omega
            simp [findallF, hd, ih _ hlen]
          · have hdf : isIdentStart d = false := by
              cases hdd : isIdentStart d
              · rfl
              · exact absurd hdd hd
            rw [findall_dollar_not_ident hdf]
            have hlen : (d :: rest2).length ≤ fuel := by
              simp only [List.length_cons]
              omega
            simp [findallF, hdf, ih _ hlen]
      · rw [findall_cons_not_dollar hc]
        simp only [List.length_cons] at h
        have hlen : rest.length ≤ fuel := by omega
        simp [findallF, hc, ih _ hlen]

theorem substF_agree (m : List (String × String)) : ∀ fuel (l : List Char),
    l.length ≤ fuel → substF m fuel l = subst m l := by
  intro fuel
  induction fuel with
  | zero =>
    intro l h
    have hnil : l = [] := List.length_eq_zero.mp (Nat.le_zero.mp h)
    subst hnil
    simp [substF, subst_nil]
  | succ fuel ih =>
    intro l h
    cases l with
    | nil => simp [substF, subst_nil]
    | cons c rest =>
      by_cases hc : c = '$'
      · subst hc
        cases rest with
        | nil => simp [substF, subst_dollar_end]
        | cons d rest2 =>
          simp only [List.length_cons] at h
          by_cases hdd : d = '$'
          · subst hdd
            rw [subst_escaped]
            have hlen : rest2.length ≤ fuel := by omega
            simp [substF, ih _ hlen, consOk_eq_map]
          · by_cases hdl : d = lbrace
            · subst hdl
              cases rest2 with
              | nil => simp [substF, lbrace_not_dollar, subst_lbrace_nil]
              | cons i cs =>
                simp only [List.length_cons] at h
                by_cases hi : isIdentStart i = true
                · by_cases hw : (cs.dropWhile isIdentChar).head? = some rbrace
                  · rw [subst_braced_raw m hi cs hw]
                    have hlen : ((cs.dropWhile isIdentChar).tail).length ≤ fuel := by
                      have h1 := (List.dropWhile_sublist (l := cs) (p := isIdentChar)).length_le
                      have h2 := (List.tail_sublist (cs.dropWhile isIdentChar)).length_le
                      omega
                    simp [substF, lbrace_not_dollar, hi, hw, ih _ hlen]
                  · rw [subst_braced_no_close m hi hw]
                    simp [substF, lbrace_not_dollar, hi, hw]
                · have hif : isIdentStart i = false := by
                    cases hii : isIdentStart i
                    · rfl
                    · exact absurd hii hi
                  rw [subst_braced_not_ident m hif cs]
                  simp [substF, lbrace_not_dollar, hif]
            · by_cases hdi : isIdentStart d = true
              · rw [subst_named m hdi rest2]
                have hlen : (rest2.dropWhile isIdentChar).length ≤ fuel := by
                  have := (List.dropWhile_sublist (l := rest2) (p := isIdentChar)).length_le
                  omega
                simp [substF, hdd, hdl, hdi, ih _ hlen]
              · have hdf : isIdentStart d = false := by
                  cases hdd2 : isIdentStart d
                  · rfl
                  · exact absurd hdd2 hdi
                rw [subst_invalid m hdd hdl hdf]
                simp [substF, hdd, hdl, hdf]
      · rw [subst_cons_not_dollar m hc]
        simp only [List.length_cons] at h
        have hlen : rest.length ≤ fuel := by omega
        simp [substF, hc, ih _ hlen, consOk_eq_map]

theorem findall_eval (l : List Char) : findall l = findallF (l.length + 1) l :=
  (findallF_agree (l.length + 1) l (by omega)).symm

theorem subst_eval (m : List (String × String)) (l : List Char) :
    subst m l = substF m (l.length + 1) l :=
  (substF_agree m (l.length + 1) l (by omega)).symm

theorem required_fields_eval (t : Template) :
    required_fields_of t =
      pySortedSet (findallF (t.subject.data.length + 1) t.subject.data ++
        findallF (t.body.data.length + 1) t.body.data) := by
  unfold required_fields_of
  rw [findall_eval, findall_eval]

theorem generate_email_eval (g : Generator) (ttype : String)
    (guest : List (String × String)) :
    generate_email g ttype guest = generate_emailF g ttype guest := by
  simp only [generate_email, generate_emailF, required_fields_of, findall_eval, subst_eval]

/-! Claim C2: missing required fields produce the missing-field error with
the complete sorted duplicate-free list. -/

/-- C2: for every stored template and every values mapping lacking at least
one required field, generate_email fails with the missing-field error whose
list contains exactly the absent required fields, sorted lexicographically
by code point, with no duplicates. -/
theorem c2_missing_fields_error {g : Generator} {ttype : String} {t : Template}
    {guest : List (String × String)}
    (hT : alookup ttype g.templates = some t) (f0 : String)
    (hf0 : f0 ∈ required_fields_of t) (habsent : alookup f0 guest = none) :
    ∃ l, generate_email g ttype guest = .error (.missingFields l) ∧
      l.Sorted pyLe ∧ l.Nodup ∧
      (∀ f, f ∈ l ↔ f ∈ required_fields_of t ∧ alookup f guest = none) := by
  refine ⟨(required_fields_of t).filter (fun f => (alookup f guest).isNone), ?_, ?_, ?_, ?_⟩
  · rw [generate_email_unfold hT]
    have hmem : f0 ∈ (required_fields_of t).filter (fun f => (alookup f guest).isNone) := by
      rw [List.mem_filter]
      exact ⟨hf0, by simp [habsent]⟩
    have hne : ((required_fields_of t).filter (fun f => (alookup f guest).isNone)).isEmpty
        = false := by
      cases hc : (required_fields_of t).filter (fun f => (alookup f guest).isNone) with
      | nil => rw [hc] at hmem; simp at hmem
      | cons a l2 => simp
    rw [hne]
    simp
  · exact (required_fields_sorted t).filter _
  · exact (required_fields_nodup t).filter _
  · intro f
    rw [List.mem_filter]
    simp [Option.isNone_iff_eq_none]

/-- C2 witness: a concrete template with fields a and b and a mapping
providing neither, run through the theorem. -/
theorem c2_witness :
    ∃ l, generate_email ⟨[("t", ⟨"Hi $b and $a", ""⟩)], []⟩ "t" [("zzz", "1")] =
        .error (.missingFields l) ∧
      l.Sorted pyLe ∧ l.Nodup ∧
      (∀ f, f ∈ l ↔ f ∈ required_fields_of ⟨"Hi $b and $a", ""⟩ ∧
        alookup f [("zzz", "1")] = none) :=
  c2_missing_fields_error (by decide) "a"
    (by rw [required_fields_eval]; decide) (by decide)

/-! Claim C1: rendering with a superset of the required fields. -/

/-- C1 counterexample: the claim fails as stated.  A template whose text
holds a sentinel not followed by an identifier (subject just the two
characters dollar five) has an empty required-field set, so the empty
mapping is a superset of it, yet generate_email raises the
invalid-placeholder error instead of succeeding; and when a supplied value
itself contains placeholder text, the rendered output retains a sentinel
token of a resolved field. -/
theorem c1_counterexample :
    (required_fields_of ⟨"$5", ""⟩ = [] ∧
      generate_email ⟨[("bad", ⟨"$5", ""⟩)], []⟩ "bad" [] = .error .invalidPlaceholder) ∧
    (generate_email ⟨[("t", ⟨"$a", ""⟩)], []⟩ "t" [("a", "$a")] = .ok ⟨"", "$a", ""⟩ ∧
      hasPlaceholderToken (String.data "$a") = true ∧
      "a" ∈ required_fields_of ⟨"$a", ""⟩) := by
  refine ⟨⟨?_, ?_⟩, ?_, by decide, ?_⟩
  · rw [required_fields_eval]
    decide
  · rw [generate_email_eval]
    decide
  · rw [generate_email_eval]
    decide
  · rw [required_fields_eval]
    decide

/-- C1 amended: for every stored template all of whose sentinel occurrences
begin bare-form placeholders, and every values mapping covering the
required fields, generate_email succeeds with the recipient taken from
guest_email, and when no supplied value itself contains a sentinel the
rendered subject and body hold no remaining placeholder token. -/
theorem c1_render_success_clean {g : Generator} {ttype : String} (t : Template)
    {guest : List (String × String)}
    (hT : alookup ttype g.templates = some t)
    (hs : cleanPattern t.subject.data = true) (hb : cleanPattern t.body.data = true)
    (hsup : ∀ f ∈ required_fields_of t, (alookup f guest).isSome = true) :
    ∃ sj bd, generate_email g ttype guest =
        .ok ⟨(alookup "guest_email" guest).getD "", sj, bd⟩ ∧
      ((∀ q ∈ guest, noDollar q.2.data = true) →
        hasPlaceholderToken sj.data = false ∧ hasPlaceholderToken bd.data = false) := by
  have hfs : ∀ f ∈ findall t.subject.data, (alookup f guest).isSome = true := fun f hf =>
    hsup f (mem_required_fields.mpr (Or.inl hf))
  have hfb : ∀ f ∈ findall t.body.data, (alookup f guest).isSome = true := fun f hf =>
    hsup f (mem_required_fields.mpr (Or.inr hf))
  obtain ⟨outS, hS, hgS⟩ := subst_clean guest hs hfs
  obtain ⟨outB, hB, hgB⟩ := subst_clean guest hb hfb
  have hmiss : (required_fields_of t).filter (fun f => (alookup f guest).isNone) = [] := by
    rw [List.filter_eq_nil_iff]
    intro f hf
    have h2 := hsup f hf
    cases h3 : alookup f guest with
    | none => rw [h3] at h2; simp at h2
    | some v => simp
  refine ⟨String.mk outS, String.mk outB, ?_, ?_⟩
  · rw [generate_email_unfold hT, hmiss]
    simp [hS, hB]
  · intro hm
    exact ⟨hgS hm, hgB hm⟩

/-- C1 witness: a bare-placeholder template rendered from a mapping that
covers its one field and adds an unused guest_email. -/
theorem c1_witness :
    ∃ sj bd, generate_email ⟨[("t", ⟨"Hi $name", "Bye $name"⟩)], []⟩ "t"
        [("name", "Ana"), ("guest_email", "a@b.c")] =
        .ok ⟨(alookup "guest_email" [("name", "Ana"), ("guest_email", "a@b.c")]).getD "",
          sj, bd⟩ ∧
      ((∀ q ∈ [("name", "Ana"), ("guest_email", "a@b.c")], noDollar q.2.data = true) →
        hasPlaceholderToken sj.data = false ∧ hasPlaceholderToken bd.data = false) :=
  c1_render_success_clean ⟨"Hi $name", "Bye $name"⟩ (by decide) (by decide) (by decide)
    (by rw [required_fields_eval]; decide)

/-! Claim C3: literal sentinels not followed by an identifier. -/

/-- C3 counterexample: the body part of the claim is right (the digit is
not a required field) but the render part fails: on the spec's own example
text the substitution raises the invalid-placeholder error instead of
passing the sentinel through verbatim. -/
theorem c3_counterexample :
    required_fields_of ⟨"Total: $5 (approx)", ""⟩ = [] ∧
    generate_email ⟨[("promo", ⟨"Total: $5 (approx)", ""⟩)], []⟩ "promo" [] =
      .error .invalidPlaceholder := by
  refine ⟨?_, ?_⟩
  · rw [required_fields_eval]
    decide
  · rw [generate_email_eval]
    decide

/-- C3 amended: an invalid sentinel contributes no required field, but
generate_email fails on any template containing one; only a template whose
patterns contain no sentinel at all renders verbatim, under every values
mapping including the empty one. -/
theorem c3_verbatim_no_sentinel {g : Generator} {ttype : String} (t : Template)
    {guest : List (String × String)}
    (hT : alookup ttype g.templates = some t)
    (hs : noDollar t.subject.data = true) (hb : noDollar t.body.data = true) :
    required_fields_of t = [] ∧
    generate_email g ttype guest =
      .ok ⟨(alookup "guest_email" guest).getD "", t.subject, t.body⟩ := by
  have hreq : required_fields_of t = [] := by
    unfold required_fields_of
    rw [findall_noDollar hs, findall_noDollar hb]
    rfl
  refine ⟨hreq, ?_⟩
  rw [generate_email_unfold hT, hreq]
  simp [subst_noDollar guest hs, subst_noDollar guest hb]

/-- C3 witness: a sentinel-free template renders verbatim from the empty
mapping. -/
theorem c3_witness :
    required_fields_of ⟨"Hello there", "No fields at all."⟩ = [] ∧
    generate_email ⟨[("plain", ⟨"Hello there", "No fields at all."⟩)], []⟩ "plain" [] =
      .ok ⟨(alookup "guest_email" ([] : List (String × String))).getD "",
        "Hello there", "No fields at all."⟩ :=
  c3_verbatim_no_sentinel ⟨"Hello there", "No fields at all."⟩ (by decide) (by decide)
    (by decide)

/-! Claim C4: brace-form placeholders. -/

/-- C4 counterexample: the brace form is not treated like the bare form.
A template whose subject holds one braced placeholder has an empty
required-field set; rendering without the value fails with KeyError, not
with the missing-field error; rendering with the value substitutes it. -/
theorem c4_counterexample :
    required_fields_of ⟨"Hi $\x7bname\x7d", ""⟩ = [] ∧
    generate_email ⟨[("t", ⟨"Hi $\x7bname\x7d", ""⟩)], []⟩ "t" [] =
      .error (.keyError "name") ∧
    generate_email ⟨[("t", ⟨"Hi $\x7bname\x7d", ""⟩)], []⟩ "t" [("name", "Bob")] =
      .ok ⟨"", "Hi Bob", ""⟩ := by
  refine ⟨?_, ?_, ?_⟩
  · rw [required_fields_eval]
    decide
  · rw [generate_email_eval]
    decide
  · rw [generate_email_eval]
    decide

/-- C4 amended: the field scanner skips a braced placeholder entirely (it
contributes nothing to the required fields), while substitution does
recognise it: the value replaces it when the mapping has the identifier
and a KeyError — not the missing-field error — is raised when it does
not. -/
theorem c4_braced_skipped_but_substituted (i : Char) (cs : List Char)
    (hi : isIdentStart i = true) (hcs : ∀ c ∈ cs, isIdentChar c = true)
    (rest : List Char) (m : List (String × String)) :
    findall ('$' :: lbrace :: i :: (cs ++ rbrace :: rest)) = findall rest ∧
    (∀ v, alookup (String.mk (i :: cs)) m = some v →
      subst m ('$' :: lbrace :: i :: (cs ++ rbrace :: rest)) =
        (subst m rest).map (fun out => v.data ++ out)) ∧
    (alookup (String.mk (i :: cs)) m = none →
      subst m ('$' :: lbrace :: i :: (cs ++ rbrace :: rest)) =
        .error (.keyError (String.mk (i :: cs)))) := by
  have hnd : noDollar (lbrace :: i :: (cs ++ [rbrace])) = true := by
    unfold noDollar
    rw [List.all_eq_true]
    intro c hc
    simp only [List.mem_cons, List.mem_append, List.mem_singleton] at hc
    rcases hc with hc | hc | hc | hc
    · subst hc; decide
    · subst hc
      simp [identStart_not_dollar hi]
    · simp [identChar_not_dollar (hcs c hc)]
    · rcases hc with hc | hc
      · subst hc; decide
      · simp at hc
  refine ⟨?_, ?_, ?_⟩
  · have hlb : isIdentStart lbrace = false := by decide
    rw [findall_dollar_not_ident hlb]
    have heq : lbrace :: i :: (cs ++ rbrace :: rest) =
        (lbrace :: i :: (cs ++ [rbrace])) ++ rest := by simp
    rw [heq, findall_append_noDollar hnd]
  · intro v hv
    rw [subst_braced m hi hcs rest, hv]
    simp [keyedAppend, appendOk_eq_map]
  · intro hnone
    rw [subst_braced m hi hcs rest, hnone]
    simp [keyedAppend]

/-- C4 witness: the braced placeholder name, skipped by the scanner and
substituted (or KeyError-raising) by the renderer. -/
theorem c4_witness :
    findall ('$' :: lbrace :: 'n' :: (['a', 'm', 'e'] ++ rbrace :: [])) = findall [] ∧
    (∀ v, alookup (String.mk ('n' :: ['a', 'm', 'e'])) [("name", "Bob")] = some v →
      subst [("name", "Bob")] ('$' :: lbrace :: 'n' :: (['a', 'm', 'e'] ++ rbrace :: [])) =
        (subst [("name", "Bob")] []).map (fun out => v.data ++ out)) ∧
    (alookup (String.mk ('n' :: ['a', 'm', 'e'])) [("name", "Bob")] = none →
      subst [("name", "Bob")] ('$' :: lbrace :: 'n' :: (['a', 'm', 'e'] ++ rbrace :: [])) =
        .error (.keyError (String.mk ('n' :: ['a', 'm', 'e'])))) :=
  c4_braced_skipped_but_substituted 'n' ['a', 'm', 'e'] (by decide) (by decide)
    [] [("name", "Bob")]

/-! Claim C10: a doubled sentinel followed by an identifier. -/

/-- C10: in a template whose subject is sentinel-free text, then a doubled
sentinel immediately followed by an identifier, then non-identifier
sentinel-free text, the identifier is reported as a required field and
render demands it (failing with the missing-field error naming it when it
is absent); yet when the value is supplied the rendered subject is the
text with one literal sentinel before the identifier — independent of the
supplied value, which therefore never appears. -/
theorem c10_doubled_sentinel (p s : List Char) (i : Char) (cs : List Char)
    {g : Generator} {ttype : String}
    (hT : alookup ttype g.templates =
      some ⟨String.mk (p ++ '$' :: '$' :: i :: (cs ++ s)), ""⟩)
    (hp : noDollar p = true) (hs : noDollar s = true)
    (hi : isIdentStart i = true) (hcs : ∀ c ∈ cs, isIdentChar c = true)
    (hshead : ∀ d, s.head? = some d → isIdentChar d = false) :
    required_fields_of ⟨String.mk (p ++ '$' :: '$' :: i :: (cs ++ s)), ""⟩ =
        [String.mk (i :: cs)] ∧
    (∀ guest, alookup (String.mk (i :: cs)) guest = none →
      generate_email g ttype guest = .error (.missingFields [String.mk (i :: cs)])) ∧
    (∀ guest v, alookup (String.mk (i :: cs)) guest = some v →
      generate_email g ttype guest =
        .ok ⟨(alookup "guest_email" guest).getD "",
          String.mk (p ++ '$' :: i :: (cs ++ s)), ""⟩) := by
  obtain ⟨htake, hdrop⟩ :=
    takeWhile_dropWhile_append (q := isIdentChar) hcs (r := s) hshead
  have hds : isIdentStart '$' = false := by decide
  have hfa : findall (p ++ '$' :: '$' :: i :: (cs ++ s)) = [String.mk (i :: cs)] := by
    rw [findall_append_noDollar hp, findall_dollar_not_ident hds, findall_dollar_ident hi,
      htake, hdrop, findall_noDollar hs]
  have hreq : required_fields_of ⟨String.mk (p ++ '$' :: '$' :: i :: (cs ++ s)), ""⟩ =
      [String.mk (i :: cs)] := by
    show pySortedSet (findall (p ++ '$' :: '$' :: i :: (cs ++ s)) ++ findall []) =
      [String.mk (i :: cs)]
    rw [hfa, findall_nil, List.append_nil]
    unfold pySortedSet
    rw [List.dedup_cons_of_not_mem (by simp), List.dedup_nil]
    simp [List.insertionSort, List.orderedInsert]
  have hX : noDollar (i :: (cs ++ s)) = true := by
    rw [noDollar_cons]
    refine ⟨identStart_not_dollar hi, ?_⟩
    rw [noDollar_append]
    refine ⟨?_, hs⟩
    unfold noDollar
    rw [List.all_eq_true]
    intro c hc
    simp [identChar_not_dollar (hcs c hc)]
  refine ⟨hreq, ?_, ?_⟩
  · intro guest hnone
    rw [generate_email_unfold hT, hreq]
    have hisn : (alookup (String.mk (i :: cs)) guest).isNone = true := by simp [hnone]
    simp [List.filter, hisn]
  · intro guest v hv
    rw [generate_email_unfold hT, hreq]
    have hisn : (alookup (String.mk (i :: cs)) guest).isNone = false := by simp [hv]
    have hsubj : subst guest (p ++ '$' :: '$' :: i :: (cs ++ s)) =
        .ok (p ++ '$' :: i :: (cs ++ s)) := by
      rw [subst_append_noDollar guest hp, subst_escaped, subst_noDollar guest hX]
      rfl
    simp [List.filter, hisn, hsubj, subst_nil]

/-- C10 witness: the concrete doubled-sentinel template, its required
field, the missing-field failure, and the rendered text with the literal
sentinel and without the supplied value. -/
theorem c10_witness :
    required_fields_of
        ⟨String.mk ("Note: ".data ++ '$' :: '$' :: 'n' :: (['o', 't', 'e'] ++ " here".data)), ""⟩ =
      [String.mk ('n' :: ['o', 't', 'e'])] ∧
    generate_email ⟨[("memo", ⟨String.mk ("Note: ".data ++ '$' :: '$' :: 'n' :: (['o', 't', 'e'] ++ " here".data)), ""⟩)], []⟩ "memo" [] =
      .error (.missingFields [String.mk ('n' :: ['o', 't', 'e'])]) ∧
    generate_email ⟨[("memo", ⟨String.mk ("Note: ".data ++ '$' :: '$' :: 'n' :: (['o', 't', 'e'] ++ " here".data)), ""⟩)], []⟩ "memo"
        [("note", "XYZ")] =
      .ok ⟨(alookup "guest_email" [("note", "XYZ")]).getD "",
        String.mk ("Note: ".data ++ '$' :: 'n' :: (['o', 't', 'e'] ++ " here".data)), ""⟩ := by
  have h := c10_doubled_sentinel "Note: ".data " here".data 'n' ['o', 't', 'e']
    (g := ⟨[("memo", ⟨String.mk ("Note: ".data ++ '$' :: '$' :: 'n' :: (['o', 't', 'e'] ++ " here".data)), ""⟩)], []⟩)
    ((by decide :
      alookup "memo" (⟨[("memo", ⟨String.mk ("Note: ".data ++ '$' :: '$' :: 'n' :: (['o', 't', 'e'] ++ " here".data)), ""⟩)], []⟩ : Generator).templates =
        some ⟨String.mk ("Note: ".data ++ '$' :: '$' :: 'n' :: (['o', 't', 'e'] ++ " here".data)), ""⟩))
    (by decide) (by decide) (by decide) (by decide) (by decide)
  refine ⟨h.1, h.2.1 [] (by decide), ?_⟩
  have h3 := h.2.2 [("note", "XYZ")] "XYZ" (by decide)
  exact h3

/-! Claim C6: partial update. -/

/-- C6: update_template on an existing template replaces exactly the given
fields; an omitted (None) subject or body keeps its prior value, and the
call returns the name. -/
theorem c6_partial_update {g : Generator} (name : String)
    (subject2 body2 : Option String) (t : Template)
    (hT : alookup name g.templates = some t) :
    (update_template g name subject2 body2 true).2 = .ok name ∧
    alookup name (update_template g name subject2 body2 true).1.templates =
      some ⟨subject2.getD t.subject, body2.getD t.body⟩ := by
  unfold update_template
  rw [hT]
  simp [alookup_dictInsert_self]

/-- C6 witness: the spec's concrete scenario: add greeting, update only the
body, observe the subject unchanged and the body replaced. -/
theorem c6_witness :
    (update_template (add_template ⟨[], []⟩ "greeting" "Hi $name" "Hello $name!" true).1
        "greeting" none (some "Hi there, $name!!") true).2 = .ok "greeting" ∧
    alookup "greeting"
        (update_template (add_template ⟨[], []⟩ "greeting" "Hi $name" "Hello $name!" true).1
          "greeting" none (some "Hi there, $name!!") true).1.templates =
      some ⟨(none : Option String).getD "Hi $name",
        (some "Hi there, $name!!").getD "Hello $name!"⟩ :=
  c6_partial_update "greeting" none (some "Hi there, $name!!")
    ⟨"Hi $name", "Hello $name!"⟩ (by decide)

/-! Claim C9: the core does not validate template names. -/

/-- C9 counterexample: a name failing the naming pattern (it starts with a
digit) is accepted by add_template, which succeeds and stores it — the
core performs no name validation; only the CLI checks the pattern. -/
theorem c9_counterexample :
    validTemplateName "9bad" = false ∧
    (add_template ⟨[], []⟩ "9bad" "s" "b" true).2 = .ok "9bad" ∧
    alookup "9bad" (add_template ⟨[], []⟩ "9bad" "s" "b" true).1.templates =
      some ⟨"s", "b"⟩ := by decide

/-- C9 amended: add_template performs no name validation at all: any name
not already present — valid or not against the CLI pattern
r'^[a-z_][a-z0-9_]*$' — is accepted, stored and returned. -/
theorem c9_no_name_validation (g : Generator) (name s b : String)
    (hinvalid : validTemplateName name = false)
    (hfresh : alookup name g.templates = none) :
    (add_template g name s b true).2 = .ok name ∧
    alookup name (add_template g name s b true).1.templates = some ⟨s, b⟩ := by
  unfold add_template
  rw [hfresh]
  simp [alookup_dictInsert_self]

/-- C9 witness: the invalid name accepted on an empty store. -/
theorem c9_witness :
    (add_template ⟨[], []⟩ "9bad" "s" "b" true).2 = .ok "9bad" ∧
    alookup "9bad" (add_template ⟨[], []⟩ "9bad" "s" "b" true).1.templates =
      some ⟨"s", "b"⟩ :=
  c9_no_name_validation ⟨[], []⟩ "9bad" "s" "b" (by decide) (by decide)

/-! Claim C8: mutations are not atomic against storage failure. -/

/-- C8 counterexample: when the durable write of add fails, the error
propagates but the in-memory store already holds the new record — the
state visibly changed, contradicting leaves-state-exactly-as-before. -/
theorem c8_counterexample :
    (add_template ⟨[], []⟩ "x" "s" "b" false).2 = .error .storage ∧
    (add_template ⟨[], []⟩ "x" "s" "b" false).1.templates = [("x", ⟨"s", "b"⟩)] ∧
    ¬((add_template ⟨[], []⟩ "x" "s" "b" false).1 = (⟨[], []⟩ : Generator)) := by decide

/-- C8 amended: a failing durable write propagates the storage error, but
the in-memory mutation has already been applied when the write runs: a
failed add leaves the new record visible, a failed update leaves the new
field values visible, and a failed file removal of delete leaves the entry
already gone from memory; the modelled disk is unchanged in every case. -/
theorem c8_storage_failure_not_atomic :
    (∀ (g : Generator) (name s b : String), alookup name g.templates = none →
      (add_template g name s b false).2 = .error .storage ∧
      alookup name (add_template g name s b false).1.templates = some ⟨s, b⟩ ∧
      (add_template g name s b false).1.disk = g.disk) ∧
    (∀ (g : Generator) (name : String) (s2 b2 : Option String) (t : Template),
      alookup name g.templates = some t →
      (update_template g name s2 b2 false).2 = .error .storage ∧
      alookup name (update_template g name s2 b2 false).1.templates =
        some ⟨s2.getD t.subject, b2.getD t.body⟩ ∧
      (update_template g name s2 b2 false).1.disk = g.disk) ∧
    (∀ (g : Generator) (name : String) (t : Template),
      alookup name g.templates = some t →
      (g.templates.map Prod.fst).Nodup →
      (alookup (name ++ ".json") g.disk).isSome = true →
      (delete_template g name false).2 = .error .storage ∧
      alookup name (delete_template g name false).1.templates = none ∧
      (delete_template g name false).1.disk = g.disk) := by
  refine ⟨?_, ?_, ?_⟩
  · intro g name s b hfresh
    unfold add_template
    rw [hfresh]
    simp [alookup_dictInsert_self]
  · intro g name s2 b2 t hT
    unfold update_template
    rw [hT]
    simp [alookup_dictInsert_self]
  · intro g name t hT hnd hdisk
    unfold delete_template
    rw [hT]
    simp [alookup_dictRemove_self hnd, hdisk]

/-- C8 witness: concrete failed add, update and delete exhibiting the
surviving in-memory mutation. -/
theorem c8_witness :
    ((add_template ⟨[], []⟩ "x" "s" "b" false).2 = .error .storage ∧
      alookup "x" (add_template ⟨[], []⟩ "x" "s" "b" false).1.templates =
        some ⟨"s", "b"⟩ ∧
      (add_template ⟨[], []⟩ "x" "s" "b" false).1.disk =
        (⟨[], []⟩ : Generator).disk) ∧
    ((update_template ⟨[("y", ⟨"a", "b"⟩)], [("y.json", "z")]⟩ "y" none (some "nb")
          false).2 = .error .storage ∧
      alookup "y" (update_template ⟨[("y", ⟨"a", "b"⟩)], [("y.json", "z")]⟩ "y" none
          (some "nb") false).1.templates =
        some ⟨(none : Option String).getD "a", (some "nb").getD "b"⟩ ∧
      (update_template ⟨[("y", ⟨"a", "b"⟩)], [("y.json", "z")]⟩ "y" none (some "nb")
          false).1.disk =
        (⟨[("y", ⟨"a", "b"⟩)], [("y.json", "z")]⟩ : Generator).disk) ∧
    ((delete_template ⟨[("y", ⟨"a", "b"⟩)], [("y.json", "z")]⟩ "y" false).2 =
        .error .storage ∧
      alookup "y" (delete_template ⟨[("y", ⟨"a", "b"⟩)], [("y.json", "z")]⟩ "y"
          false).1.templates = none ∧
      (delete_template ⟨[("y", ⟨"a", "b"⟩)], [("y.json", "z")]⟩ "y" false).1.disk =
        (⟨[("y", ⟨"a", "b"⟩)], [("y.json", "z")]⟩ : Generator).disk) := by
  refine ⟨?_, ?_, ?_⟩
  · exact c8_storage_failure_not_atomic.1 ⟨[], []⟩ "x" "s" "b" (by decide)
  · exact c8_storage_failure_not_atomic.2.1 ⟨[("y", ⟨"a", "b"⟩)], [("y.json", "z")]⟩
      "y" none (some "nb") ⟨"a", "b"⟩ (by decide)
  · exact c8_storage_failure_not_atomic.2.2 ⟨[("y", ⟨"a", "b"⟩)], [("y.json", "z")]⟩
      "y" ⟨"a", "b"⟩ (by decide) (by decide) (by decide)

/-! Claim C7: deletion is permanent within the process. -/

/-- A mutating call that is not an add of the given name cannot bring that
name back into the store. -/
theorem alookup_applyOp_none {g : Generator} {name : String} (op : Op)
    (hname : alookup name g.templates = none) (hop : isAddOfB name op = false) :
    alookup name (applyOp g op).templates = none := by
  cases op with
  | addT n s b w =>
    have hne : ¬(name = n) := by
      simp only [isAddOfB, beq_eq_false_iff_ne, ne_eq] at hop
      exact fun hh => hop hh.symm
    unfold applyOp add_template
    by_cases hdup : (alookup n g.templates).isSome = true
    · simp [hdup, hname]
    · cases w <;> simp [hdup, alookup_dictInsert_ne _ _ hne, hname]
  | updateT n s2 b2 w =>
    simp only [applyOp]
    unfold update_template
    by_cases hn : n = name
    · subst hn
      rw [hname]
      exact hname
    · cases halo : alookup n g.templates with
      | none => simpa [halo] using hname
      | some t =>
        cases w <;>
          simp [halo, alookup_dictInsert_ne _ _ (fun hh : name = n => hn hh.symm), hname]
  | deleteT n w =>
    unfold applyOp delete_template
    by_cases hex : (alookup n g.templates).isNone = true
    · simp [hex, hname]
    · simp only [hex, if_false, Bool.false_eq_true]
      split
      · cases w <;> simp [alookup_none_dictRemove hname]
      · simp [alookup_none_dictRemove hname]

/-- An absent name stays absent across any sequence of mutating calls that
never adds it. -/
theorem alookup_runOps_none {name : String} :
    ∀ (ops : List Op) (g : Generator), alookup name g.templates = none →
    (∀ op ∈ ops, isAddOfB name op = false) →
    alookup name (runOps g ops).templates = none := by
  intro ops
  induction ops with
  | nil =>
    intro g h _
    simpa [runOps] using h
  | cons op rest ih =>
    intro g h hops
    simp only [runOps]
    exact ih _ (alookup_applyOp_none op h (hops op (by simp)))
      (fun o ho => hops o (by simp [ho]))

/-- C7: after a successful delete of a name, every later get of that name
fails with the not-found error and the name is absent from the listed
names, as long as no operation in between is an add of that name. -/
theorem c7_delete_permanent (g : Generator) (name : String) (w : Bool)
    (hnd : (g.templates.map Prod.fst).Nodup)
    (hdel : (delete_template g name w).2 = .ok name)
    (ops : List Op) (hops : ∀ op ∈ ops, isAddOfB name op = false) :
    get_template (runOps (delete_template g name w).1 ops) name =
      .error (.notFound name) ∧
    ¬(name ∈ list_available_templates (runOps (delete_template g name w).1 ops)) := by
  have h0 : alookup name (delete_template g name w).1.templates = none := by
    unfold delete_template at hdel ⊢
    by_cases hex : (alookup name g.templates).isNone = true
    · rw [if_pos hex] at hdel
      simp at hdel
    · rw [if_neg hex]
      by_cases hdk : (alookup (name ++ ".json") g.disk).isSome = true <;>
        by_cases hw : w = true <;>
          simp [hdk, hw, alookup_dictRemove_self hnd]
  have h1 := alookup_runOps_none ops _ h0 hops
  constructor
  · unfold get_template
    rw [h1]
  · unfold list_available_templates
    exact (alookup_eq_none _ _).mp h1

/-- C7 witness: delete the template named a, then add another name, update
and delete a surviving one; a never reappears. -/
theorem c7_witness :
    get_template
        (runOps (delete_template ⟨[("a", ⟨"s", "b"⟩), ("keep", ⟨"x", "y"⟩)],
            [("a.json", "c")]⟩ "a" true).1
          [Op.addT "other" "s" "b" true, Op.updateT "keep" none (some "z") false,
            Op.deleteT "keep" true]) "a" = .error (.notFound "a") ∧
    ¬("a" ∈ list_available_templates
        (runOps (delete_template ⟨[("a", ⟨"s", "b"⟩), ("keep", ⟨"x", "y"⟩)],
            [("a.json", "c")]⟩ "a" true).1
          [Op.addT "other" "s" "b" true, Op.updateT "keep" none (some "z") false,
            Op.deleteT "keep" true])) :=
  c7_delete_permanent ⟨[("a", ⟨"s", "b"⟩), ("keep", ⟨"x", "y"⟩)], [("a.json", "c")]⟩
    "a" true (by decide) (by decide)
    [Op.addT "other" "s" "b" true, Op.updateT "keep" none (some "z") false,
      Op.deleteT "keep" true] (by decide)

/-! The JSON string escaping of the writer round-trips through the
scanner. -/

theorem char_valid_nat (c : Char) :
    c.toNat < 55296 ∨ (57344 ≤ c.toNat ∧ c.toNat < 1114112) := by
  have h := c.valid
  simp only [UInt32.isValidChar, Nat.isValidChar] at h
  exact h

theorem hexVal_hexDigitChar (d : Nat) (h : d < 16) : hexVal (hexDigitChar d) = some d := by
  interval_cases d <;> decide

theorem hexVal4_hex4 {n : Nat} (hn : n < 65536) :
    hexVal4 (hexDigitChar (n / 4096 % 16)) (hexDigitChar (n / 256 % 16))
      (hexDigitChar (n / 16 % 16)) (hexDigitChar (n % 16)) = some n := by
  unfold hexVal4
  rw [hexVal_hexDigitChar _ (by omega), hexVal_hexDigitChar _ (by omega),
    hexVal_hexDigitChar _ (by omega), hexVal_hexDigitChar _ (by omega)]
  show some (((n / 4096 % 16 * 16 + n / 256 % 16) * 16 + n / 16 % 16) * 16 + n % 16)
    = some n
  have harith : ((n / 4096 % 16 * 16 + n / 256 % 16) * 16 + n / 16 % 16) * 16 + n % 16
      = n := by omega
  rw [harith]

theorem decodeEscape_u_bmp {n : Nat} (hn : n < 65536) (hc : n < 55296 ∨ 57344 ≤ n)
    (r : List Char) : decodeEscape ('u' :: (hex4 n ++ r)) = some (Char.ofNat n, r) := by
  unfold hex4
  simp only [List.cons_append, List.nil_append]
  unfold decodeEscape
  simp only [show (('u' : Char) = '"') = False by simp, show (('u' : Char) = '\\') = False by simp,
    show (('u' : Char) = '/') = False by simp, show (('u' : Char) = 'b') = False by simp,
    show (('u' : Char) = 'f') = False by simp, show (('u' : Char) = 'n') = False by simp,
    show (('u' : Char) = 'r') = False by simp, show (('u' : Char) = 't') = False by simp,
    if_false, if_pos rfl]
  rw [hexVal4_hex4 hn]
  simp [hc]

theorem decodeEscape_u_pair {n1 n2 : Nat} (h1a : 55296 ≤ n1) (h1b : n1 ≤ 56319)
    (h2a : 56320 ≤ n2) (h2b : n2 ≤ 57343) (r : List Char) :
    decodeEscape ('u' :: (hex4 n1 ++ ('\\' :: 'u' :: (hex4 n2 ++ r)))) =
      some (Char.ofNat (65536 + (n1 - 55296) * 1024 + (n2 - 56320)), r) := by
  unfold hex4
  simp only [List.cons_append, List.nil_append]
  unfold decodeEscape
  simp only [show (('u' : Char) = '"') = False by simp, show (('u' : Char) = '\\') = False by simp,
    show (('u' : Char) = '/') = False by simp, show (('u' : Char) = 'b') = False by simp,
    show (('u' : Char) = 'f') = False by simp, show (('u' : Char) = 'n') = False by simp,
    show (('u' : Char) = 'r') = False by simp, show (('u' : Char) = 't') = False by simp,
    if_false, if_pos rfl]
  rw [hexVal4_hex4 (n := n1) (by omega)]
  have hc1 : ¬(n1 < 55296 ∨ 57344 ≤ n1) := by omega
  have hc2 : n1 ≤ 56319 := h1b
  simp [hc1, hc2]
  rw [hexVal4_hex4 (n := n2) (by omega)]
  have hc3 : 56320 ≤ n2 ∧ n2 ≤ 57343 := ⟨h2a, h2b⟩
  simp [hc3]

theorem decodeOne_escChar (c : Char) (r : List Char) :
    decodeOne (escChar c ++ r) = some (c, r) := by
  by_cases h1 : c = '\\'
  · subst h1
    simp [escChar, decodeOne, decodeEscape]
  by_cases h2 : c = '"'
  · subst h2
    simp [escChar, decodeOne, decodeEscape]
  by_cases h3 : c = '\n'
  · subst h3
    simp [escChar, decodeOne, decodeEscape]
  by_cases h4 : c = '\r'
  · subst h4
    simp [escChar, decodeOne, decodeEscape]
  by_cases h5 : c = '\t'
  · subst h5
    simp [escChar, decodeOne, decodeEscape]
  by_cases h6 : c.toNat = 8
  · have hc : Char.ofNat 8 = c := by rw [← h6, Char.ofNat_toNat]
    unfold escChar
    rw [if_neg h1, if_neg h2, if_neg h3, if_neg h4, if_neg h5, if_pos h6]
    simp [decodeOne, decodeEscape]
    exact hc
  by_cases h7 : c.toNat = 12
  · have hc : Char.ofNat 12 = c := by rw [← h7, Char.ofNat_toNat]
    unfold escChar
    rw [if_neg h1, if_neg h2, if_neg h3, if_neg h4, if_neg h5, if_neg h6, if_pos h7]
    simp [decodeOne, decodeEscape]
    exact hc
  by_cases h8 : 32 ≤ c.toNat ∧ c.toNat ≤ 126
  · unfold escChar
    rw [if_neg h1, if_neg h2, if_neg h3, if_neg h4, if_neg h5, if_neg h6, if_neg h7,
      if_pos h8]
    simp [decodeOne, h1, h2]
  by_cases h9 : c.toNat < 65536
  · unfold escChar
    rw [if_neg h1, if_neg h2, if_neg h3, if_neg h4, if_neg h5, if_neg h6, if_neg h7,
      if_neg h8, if_pos h9]
    have hcond : c.toNat < 55296 ∨ 57344 ≤ c.toNat := by
      rcases char_valid_nat c with h | h
      · exact Or.inl h
      · exact Or.inr h.1
    unfold uEscape
    simp only [List.cons_append, List.append_assoc]
    simp only [decodeOne, show (('\\' : Char) = '"') = False by simp,
      show (('\\' : Char) = '\\') = True by simp, if_false, if_true]
    rw [decodeEscape_u_bmp h9 hcond]
    rw [Char.ofNat_toNat]
  · unfold escChar
    rw [if_neg h1, if_neg h2, if_neg h3, if_neg h4, if_neg h5, if_neg h6, if_neg h7,
      if_neg h8, if_neg h9]
    have hv : 57344 ≤ c.toNat ∧ c.toNat < 1114112 := by
      rcases char_valid_nat c with h | h
      · omega
      · exact h
    unfold uEscape
    simp only [List.cons_append, List.append_assoc, List.nil_append]
    simp only [decodeOne, show (('\\' : Char) = '"') = False by simp,
      show (('\\' : Char) = '\\') = True by simp, if_false, if_true]
    rw [decodeEscape_u_pair (by omega) (by omega) (by omega) (by omega)]
    have harith : 65536 + (55296 + (c.toNat - 65536) / 1024 - 55296) * 1024 +
        (56320 + (c.toNat - 65536) % 1024 - 56320) = c.toNat := by omega
    rw [harith, Char.ofNat_toNat]

theorem escChar_ne_nil (c : Char) : escChar c ≠ [] := by
  unfold escChar
  split_ifs <;> simp [uEscape, hex4]

theorem decodeBodyF_escChar (fuel : Nat) (c : Char) (r : List Char) :
    decodeBodyF (fuel + 1) (escChar c ++ r) = mapCons c (decodeBodyF fuel r) := by
  cases hesc : escChar c with
  | nil => exact absurd hesc (escChar_ne_nil c)
  | cons c1 t =>
    have hd := decodeOne_escChar c r
    rw [hesc] at hd
    simp only [List.cons_append] at hd ⊢
    have hq : ¬(c1 = '"') := by
      intro hq
      subst hq
      simp [decodeOne] at hd
    simp only [decodeBodyF, if_neg hq]
    rw [hd]

theorem decodeBodyF_encoded : ∀ (l : List Char) (fuel : Nat) (r : List Char),
    l.length < fuel →
    decodeBodyF fuel ((l.map escChar).flatten ++ ('"' :: r)) = some (l, r) := by
  intro l
  induction l with
  | nil =>
    intro fuel r h
    cases fuel with
    | zero => omega
    | succ f => simp [decodeBodyF]
  | cons c l2 ih =>
    intro fuel r h
    cases fuel with
    | zero => omega
    | succ f =>
      simp only [List.map_cons, List.flatten_cons, List.append_assoc]
      rw [decodeBodyF_escChar f c _]
      rw [ih f r (by simp only [List.length_cons] at h; omega)]
      rfl

theorem length_le_flatten_escChar (l : List Char) :
    l.length ≤ ((l.map escChar).flatten).length := by
  induction l with
  | nil => simp
  | cons c l2 ih =>
    simp only [List.map_cons, List.flatten_cons, List.length_append, List.length_cons]
    have h1 : 1 ≤ (escChar c).length := by
      cases hesc : escChar c with
      | nil => exact absurd hesc (escChar_ne_nil c)
      | cons a t => simp
    omega

theorem decodeBody_encoded (l r : List Char) :
    decodeBody ((l.map escChar).flatten ++ ('"' :: r)) = some (l, r) := by
  unfold decodeBody
  apply decodeBodyF_encoded
  have h := length_le_flatten_escChar l
  simp only [List.length_append, List.length_cons]
  omega

theorem decodeStringTok_encoded (s : String) (r : List Char) :
    decodeStringTok ((py_encode_string s).data ++ r) = some (s, r) := by
  show decodeStringTok ((('"' :: ((s.data.map escChar).flatten ++ ['"'])) ++ r)) = some (s, r)
  simp only [List.cons_append, List.append_assoc, List.singleton_append]
  unfold decodeStringTok
  simp only [show (('"' : Char) = '"') = True by simp, if_true]
  rw [decodeBody_encoded]
  rfl

theorem expectChars_append (p l : List Char) : expectChars p (p ++ l) = some l := by
  induction p with
  | nil => simp [expectChars]
  | cons c p2 ih => simp [expectChars, ih]

theorem expectChars_self (p : List Char) : expectChars p p = some [] := by
  have h := expectChars_append p []
  simpa using h

theorem decodeTemplate_encodeTemplate (t : Template) :
    decodeTemplate (encodeTemplate t) = some t := by
  unfold decodeTemplate encodeTemplate
  simp only [String.data_append, List.append_assoc]
  rw [expectChars_append]
  simp only []
  rw [decodeStringTok_encoded]
  simp only []
  rw [expectChars_append]
  simp only []
  rw [decodeStringTok_encoded]
  simp only []
  rw [expectChars_self]

/-! Valid template names survive the file-name round trip. -/

theorem validTail_not_dot : ∀ {l : List Char}, validTail l = true → ∀ c ∈ l, ¬(c = '.') := by
  intro l
  induction l with
  | nil =>
    intro _ c hc
    simp at hc
  | cons a l2 ih =>
    intro h c hc
    cases l2 with
    | nil =>
      simp only [List.mem_singleton] at hc
      subst hc
      intro hdot
      subst hdot
      revert h
      decide
    | cons b l3 =>
      rw [show validTail (a :: b :: l3) = (isLowerIdentChar a && validTail (b :: l3))
        from rfl] at h
      obtain ⟨h1, h2⟩ := Bool.and_eq_true_iff.mp h
      rcases List.mem_cons.mp hc with hc | hc
      · subst hc
        intro hdot
        subst hdot
        revert h1
        decide
      · exact ih h2 c hc

theorem validTemplateName_goodName (s : String) (h : validTemplateName s = true) :
    goodName s = true := by
  unfold validTemplateName at h
  unfold goodName
  rw [List.all_eq_true]
  cases hd : s.data with
  | nil =>
    rw [hd] at h
    simp at h
  | cons c cs =>
    rw [hd] at h
    simp only [Bool.and_eq_true] at h
    intro x hx
    rcases List.mem_cons.mp hx with hx | hx
    · subst hx
      simp only [Bool.not_eq_true', decide_eq_false_iff_not]
      have h1 := h.1
      intro hdot
      subst hdot
      revert h1
      decide
    · have h2 := validTail_not_dot h.2 x hx
      simpa using h2

theorem strEndsWith_json (s : String) : strEndsWith (s ++ ".json") ".json" = true := by
  unfold strEndsWith
  rw [String.data_append]
  rw [List.isSuffixOf_iff_suffix]
  exact List.suffix_append _ _

theorem splitHead_append_json {s : String} (h : goodName s = true) :
    splitHead (s ++ ".json") = s := by
  unfold splitHead
  rw [String.data_append]
  have hsplit := takeWhile_dropWhile_append (q := fun c => !(c = '.'))
    (p := s.data) (by
      intro c hc
      unfold goodName at h
      rw [List.all_eq_true] at h
      exact h c hc)
    (r := ".json".data) (by
      intro d hd
      simp only [show (".json".data.head? = some '.') from rfl,
        Option.some.injEq] at hd
      subst hd
      decide)
  rw [hsplit.1]

/-! Loading a directory whose records are exactly the writer's output. -/

theorem loadGo_encoded : ∀ (m acc : List (String × Template)),
    (∀ q ∈ m, goodName q.1 = true) → (m.map Prod.fst).Nodup →
    (∀ k ∈ m.map Prod.fst, k ∉ acc.map Prod.fst) →
    loadGo acc (m.map encRecord) = .ok (acc ++ m) := by
  intro m
  induction m with
  | nil =>
    intro acc _ _ _
    simp [loadGo]
  | cons q m2 ih =>
    obtain ⟨n, t⟩ := q
    intro acc hgood hnd hdisj
    simp only [List.map_cons, encRecord]
    rw [loadGo]
    rw [strEndsWith_json n]
    simp only [if_true]
    rw [decodeTemplate_encodeTemplate t]
    simp only []
    rw [splitHead_append_json (hgood (n, t) (by simp))]
    have hfreshacc : n ∉ acc.map Prod.fst := hdisj n (by simp)
    rw [dictInsert_fresh t hfreshacc]
    simp only [List.map_cons, List.nodup_cons] at hnd
    rw [ih (acc ++ [(n, t)]) (fun q2 hq2 => hgood q2 (by simp [hq2])) hnd.2 ?hdisj2]
    · simp
    case hdisj2 =>
      intro k hk
      simp only [List.map_append, List.mem_append]
      rintro (hka | hkn)
      · exact hdisj k (by simp [hk]) hka
      · simp only [List.map_cons, List.map_nil, List.mem_singleton] at hkn
        subst hkn
        exact hnd.1 hk

/-! Claim C5: add/get round trip and the save/load cycle. -/

/-- C5: adding a fresh validly-named template succeeds, get returns the
byte-identical patterns, and reloading the whole directory from the
durable records reproduces the in-memory store exactly, the new template
included. -/
theorem c5_add_get_save_load_roundtrip (g : Generator) (name s b : String)
    (hInv : StoreInv g) (hvalid : validTemplateName name = true)
    (hfresh : alookup name g.templates = none) :
    (add_template g name s b true).2 = .ok name ∧
    get_template (add_template g name s b true).1 name = .ok ⟨s, b⟩ ∧
    load_templates (add_template g name s b true).1.disk =
      .ok ((add_template g name s b true).1.templates) ∧
    alookup name (add_template g name s b true).1.templates = some ⟨s, b⟩ := by
  obtain ⟨hdisk, hgood, hnd⟩ := hInv
  have hgn : goodName name = true := validTemplateName_goodName name hvalid
  have hfkeys : name ∉ g.templates.map Prod.fst := (alookup_eq_none _ _).mp hfresh
  have hlook : alookup name (add_template g name s b true).1.templates =
      some (⟨s, b⟩ : Template) := by
    unfold add_template
    rw [hfresh]
    simp [alookup_dictInsert_self]
  have hdiskkeys : (name ++ ".json") ∉ g.disk.map Prod.fst := by
    rw [hdisk]
    intro hmem
    simp only [List.map_map, List.mem_map, Function.comp] at hmem
    obtain ⟨q, hq, heq⟩ := hmem
    simp only [encRecord] at heq
    have hqname : q.1 = name := by
      have hdata := congrArg String.data heq
      rw [String.data_append, String.data_append] at hdata
      exact String.ext (List.append_cancel_right hdata)
    exact hfkeys (hqname ▸ List.mem_map_of_mem Prod.fst hq)
  have htempl : (add_template g name s b true).1.templates =
      g.templates ++ [(name, (⟨s, b⟩ : Template))] := by
    unfold add_template
    rw [hfresh]
    simp [dictInsert_fresh _ hfkeys]
  have hdisk2 : (add_template g name s b true).1.disk =
      (g.templates ++ [(name, (⟨s, b⟩ : Template))]).map encRecord := by
    unfold add_template
    rw [hfresh]
    simp only [Option.isSome_none, Bool.false_eq_true, if_false, if_true]
    rw [hdisk] at hdiskkeys ⊢
    rw [dictInsert_fresh _ hdiskkeys]
    simp [encRecord]
  refine ⟨?_, ?_, ?_, hlook⟩
  · unfold add_template
    rw [hfresh]
    simp
  · unfold get_template
    rw [hlook]
  · rw [hdisk2, htempl]
    unfold load_templates
    rw [loadGo_encoded (g.templates ++ [(name, (⟨s, b⟩ : Template))]) []
      (fun q hq => by
        rcases List.mem_append.mp hq with hq | hq
        · exact hgood q hq
        · simp only [List.mem_singleton] at hq
          subst hq
          exact hgn)
      (by
        rw [List.map_append]
        rw [List.nodup_append]
        refine ⟨hnd, by simp, ?_⟩
        intro a ha hb
        simp only [List.map_cons, List.map_nil, List.mem_singleton] at hb
        subst hb
        exact hfkeys ha)
      (by simp)]
    simp

/-- C5 witness: a fresh add on an empty consistent store, got back and
reloaded. -/
theorem c5_witness :
    (add_template ⟨[], []⟩ "greeting" "Hi $name" "Hello $name!" true).2 = .ok "greeting" ∧
    get_template (add_template ⟨[], []⟩ "greeting" "Hi $name" "Hello $name!" true).1
        "greeting" = .ok ⟨"Hi $name", "Hello $name!"⟩ ∧
    load_templates (add_template ⟨[], []⟩ "greeting" "Hi $name" "Hello $name!" true).1.disk =
      .ok ((add_template ⟨[], []⟩ "greeting" "Hi $name" "Hello $name!" true).1.templates) ∧
    alookup "greeting"
        (add_template ⟨[], []⟩ "greeting" "Hi $name" "Hello $name!" true).1.templates =
      some ⟨"Hi $name", "Hello $name!"⟩ :=
  c5_add_get_save_load_roundtrip ⟨[], []⟩ "greeting" "Hi $name" "Hello $name!"
    ⟨rfl, by simp, by simp⟩ (by decide) (by decide)
